import Mathlib

/-!
Verification development for the ADAS_BOSCH repository (modules/search.py and
modules/vehicle_db.py).  The Python code is shallowly embedded: pandas
DataFrames become lists of rows whose cells are a sum type (string / rational
number / missing, where `missing` plays the role of NaN), Python `str`
methods become executable functions on `List Char`, wall-clock instants
become integer timestamps passed explicitly, and the fuzzywuzzy scoring
functions (an external library) are parameters of the search engine.
Python's Unicode case conversion is modelled for ASCII plus the Portuguese
accented characters that appear in the source's own accent table; other code
points are left unchanged (the datasets in scope contain only these).
Floating point arithmetic is modelled by exact rationals.
-/

/-- Whitespace as recognised by Python's `str.strip` / regex `\s`
(restricted to the usual ASCII whitespace characters). -/
def isPySpace (c : Char) : Bool :=
  c = ' ' || c = '\t' || c = '\n' || c = '\x0d' || c = '\x0b' || c = '\x0c'

/-- Case table: pairs (uppercase, lowercase) for ASCII letters and the
accented characters appearing in the source's accent map.  Python's
`str.upper` / `str.lower` act on each of these pairs. -/
def caseTable : List (Char × Char) :=
  [('A','a'),('B','b'),('C','c'),('D','d'),('E','e'),('F','f'),('G','g'),
   ('H','h'),('I','i'),('J','j'),('K','k'),('L','l'),('M','m'),('N','n'),
   ('O','o'),('P','p'),('Q','q'),('R','r'),('S','s'),('T','t'),('U','u'),
   ('V','v'),('W','w'),('X','x'),('Y','y'),('Z','z'),
   ('Á','á'),('À','à'),('Ã','ã'),('Â','â'),('Ä','ä'),
   ('É','é'),('È','è'),('Ê','ê'),('Ë','ë'),
   ('Í','í'),('Ì','ì'),('Î','î'),('Ï','ï'),
   ('Ó','ó'),('Ò','ò'),('Õ','õ'),('Ô','ô'),('Ö','ö'),
   ('Ú','ú'),('Ù','ù'),('Û','û'),('Ü','ü'),
   ('Ç','ç'),('Ñ','ñ')]

/-- `str.upper` on one character: a lowercase letter is sent to its
uppercase partner, everything else is unchanged. -/
def pyUpperChar (c : Char) : Char :=
  match caseTable.find? (fun p => p.2 = c) with
  | some p => p.1
  | none => c

/-- `str.lower` on one character. -/
def pyLowerChar (c : Char) : Char :=
  match caseTable.find? (fun p => p.1 = c) with
  | some p => p.2
  | none => c

def pyUpperL (l : List Char) : List Char := l.map pyUpperChar

def pyLowerL (l : List Char) : List Char := l.map pyLowerChar

/-- `str.strip` on a character list: drop leading and trailing whitespace. -/
def pyStripL (l : List Char) : List Char :=
  ((l.dropWhile isPySpace).reverse.dropWhile isPySpace).reverse

def pyUpperS (s : String) : String := String.mk (pyUpperL s.data)

def pyLowerS (s : String) : String := String.mk (pyLowerL s.data)

def pyStripS (s : String) : String := String.mk (pyStripL s.data)

/-- Python `str.capitalize`: first character uppercased, the rest lowercased. -/
def pyCapitalizeL : List Char → List Char
  | [] => []
  | c :: cs => pyUpperChar c :: cs.map pyLowerChar

def pyCapitalizeS (s : String) : String := String.mk (pyCapitalizeL s.data)

/-- Prefix test on character lists (Python `s.startswith`, used to build the
substring test below). -/
def prefChars : List Char → List Char → Bool
  | [], _ => true
  | _ :: _, [] => false
  | p :: ps, c :: cs => p = c && prefChars ps cs

/-- Python's substring test `sub in hay`. -/
def containsL (hay sub : List Char) : Bool :=
  hay.tails.any (fun t => prefChars sub t)

/-- Python's substring test `sub in hay` on strings. -/
def containsStr (hay sub : String) : Bool := containsL hay.data sub.data

/-- ASCII digit test (Python `str.isdigit` restricted to ASCII digits,
which is what FIPE ids consist of). -/
def isAsciiDigit (c : Char) : Bool := '0' ≤ c && c ≤ '9'

/-- `normalized_query.isdigit()`: nonempty and all digits. -/
def pyIsDigitS (s : String) : Bool := !s.data.isEmpty && s.data.all isAsciiDigit

/-- `int(s)` for an all-digit string. -/
def parseDigits (l : List Char) : ℤ :=
  l.foldl (fun acc c => acc * 10 + (c.toNat - '0'.toNat : ℤ)) 0

/-!  ## TextNormalizer (src/modules/search.py lines 93-148)  -/

/-- The source's `accent_map` (src/modules/search.py lines 107-114):
uppercase accented characters and their replacements.  The source applies
`text.replace(accented, normal)` for each pair in order; since every pattern
is a single character and no replacement character occurs as a later
pattern, the loop is equivalent to mapping each character through the
table, which is how it is embedded here. -/
def accent_map : List (Char × Char) :=
  [('Á','A'), ('À','A'), ('Ã','A'), ('Â','A'), ('Ä','A'),
   ('É','E'), ('È','E'), ('Ê','E'), ('Ë','E'),
   ('Í','I'), ('Ì','I'), ('Î','I'), ('Ï','I'),
   ('Ó','O'), ('Ò','O'), ('Õ','O'), ('Ô','O'), ('Ö','O'),
   ('Ú','U'), ('Ù','U'), ('Û','U'), ('Ü','U'),
   ('Ç','C'), ('Ñ','N')]

def foldAccentChar (c : Char) : Char :=
  match accent_map.find? (fun p => p.1 = c) with
  | some p => p.2
  | none => c

/-- Word character for the regex `\w` (ASCII letters, digits, underscore;
accented letters have been folded away before this test is applied). -/
def isWordChar (c : Char) : Bool :=
  ('A' ≤ c && c ≤ 'Z') || ('a' ≤ c && c ≤ 'z') || isAsciiDigit c || c = '_'

/-- `re.sub(r'[^\w\s]', ' ', text)`: every character that is neither a word
character nor whitespace becomes a single space. -/
def subNonWord (l : List Char) : List Char :=
  l.map (fun c => if isWordChar c || isPySpace c then c else ' ')

/-- `re.sub(r'\s+', ' ', text)`: each maximal whitespace run becomes one
space. -/
def collapseSp : List Char → List Char
  | [] => []
  | [c] => [if isPySpace c then ' ' else c]
  | c :: d :: rest =>
    if isPySpace c && isPySpace d then collapseSp (d :: rest)
    else (if isPySpace c then ' ' else c) :: collapseSp (d :: rest)

/-- A Python value that may or may not be a string (the normalizer's
`isinstance(text, str)` guard). -/
inductive PyVal where
  | strv (s : String)
  | other
deriving DecidableEq

/-- `TextNormalizer.normalize_text` (src/modules/search.py lines 98-123):
non-strings yield `""`; strings are uppercased, stripped, accent-folded,
have non-word runs replaced by spaces, whitespace collapsed, and are
stripped again. -/
def normalize_text : PyVal → String
  | .other => ""
  | .strv s =>
    let t1 := pyStripL (pyUpperL s.data)
    let t2 := t1.map foldAccentChar
    let t3 := collapseSp (subNonWord t2)
    String.mk (pyStripL t3)

/-- `TextNormalizer.extract_numbers` (src/modules/search.py lines 126-128):
all maximal digit runs, in order.  `cur` carries the digits of the current
run in reverse. -/
def digitRunsGo (cur : List Char) : List Char → List (List Char)
  | [] => if cur.isEmpty then [] else [cur.reverse]
  | c :: cs =>
    if isAsciiDigit c then digitRunsGo (c :: cur) cs
    else if cur.isEmpty then digitRunsGo [] cs
    else cur.reverse :: digitRunsGo [] cs

def extract_numbers (s : String) : List String :=
  (digitRunsGo [] s.data).map String.mk

/-- The source's `known_brands` list (src/modules/search.py lines 133-139). -/
def known_brands : List String :=
  ["BMW", "MERCEDES", "MERCEDES-BENZ", "AUDI", "VOLKSWAGEN", "VW",
   "VOLVO", "TOYOTA", "FORD", "HYUNDAI", "JEEP", "LAND ROVER",
   "PEUGEOT", "RENAULT", "FIAT", "NISSAN", "HONDA", "MAZDA",
   "SUBARU", "MITSUBISHI", "LEXUS", "INFINITI", "ACURA",
   "PORSCHE", "FERRARI", "LAMBORGHINI", "BENTLEY", "ROLLS-ROYCE"]

/-- `TextNormalizer.extract_brands` (src/modules/search.py lines 130-148):
normalizes the text and keeps every known brand occurring in it as a
substring. -/
def extract_brands (s : String) : List String :=
  let tn := normalize_text (.strv s)
  known_brands.filter (fun b => containsStr tn b)

/-!  ## Data model

A pandas cell is a string, a number, or missing (NaN).  A `Row` has one
field per dataset column (the ingestion contract's required and optional
columns); pandas `.str` accessor semantics on object columns send
non-string cells to NaN, which is how the cleaners below treat `num` and
`missing` cells.  -/

inductive CellVal where
  | str (s : String)
  | num (q : ℚ)
  | missing
deriving DecidableEq

def CellVal.isStr : CellVal → Bool
  | .str _ => true
  | _ => false

/-- Python `str(cell)` as used by the scoring code: strings unchanged, NaN
prints as "nan", integral numbers print like Python ints (the model keeps
numeric cells integral in every concrete dataset used here). -/
def CellVal.pyStr : CellVal → String
  | .str s => s
  | .missing => "nan"
  | .num q => if q.den = 1 then toString q.num else toString q

/-- Cell equality against a string, as pandas `==` (a number or NaN never
equals a string). -/
def CellVal.eqStr : CellVal → String → Bool
  | .str s, t => s = t
  | _, _ => false

/-- Cell equality against an integer, as pandas `==` (strings and NaN never
equal a number). -/
def CellVal.eqInt : CellVal → ℤ → Bool
  | .num q, k => q = (k : ℚ)
  | _, _ => false

structure Row where
  FipeID : CellVal
  BrandName : CellVal
  VehicleName : CellVal
  VehicleModelYear : CellVal
  ADAS : CellVal
  abrevDescricao : CellVal      -- column "Abreviação de descrição"
  adasParabrisa : CellVal       -- column "ADAS no Parabrisa"
  adasParachoque : CellVal      -- column "Adas no Parachoque"
  tipoRegulagem : CellVal       -- column "Tipo de Regulagem"
  cameraRetrovisor : CellVal    -- column "Camera no Retrovisor"
  faroisMatrix : CellVal        -- column "Faróis Matrix"
  searchText : CellVal          -- derived column "search_text"
deriving DecidableEq

/-- A search hit, mirroring the dict built by
`IntelligentSearch._row_to_result_dict` (src/modules/search.py 340-355). -/
structure SearchResult where
  fipe_id : CellVal
  year : CellVal
  brand : CellVal
  model : CellVal
  abbreviation : CellVal
  has_adas : Bool
  windshield_adas : Bool
  bumper_adas : Bool
  calibration_type : CellVal
  rearview_camera : Bool
  matrix_lights : Bool
  search_score : ℚ
deriving DecidableEq

/-- Python's `round` to an integer: round-half-to-even. -/
def bankerRound (x : ℚ) : ℤ :=
  let f := ⌊x⌋
  let r := x - (f : ℚ)
  if r < 1/2 then f
  else if (1:ℚ)/2 < r then f + 1
  else if Even f then f else f + 1

/-- Python `round(x, 2)` on exact rationals. -/
def round2 (x : ℚ) : ℚ := (bankerRound (x * 100) : ℚ) / 100

/-- `IntelligentSearch._row_to_result_dict` (src/modules/search.py 340-355). -/
def row_to_result_dict (row : Row) (score : ℚ) : SearchResult :=
  { fipe_id := row.FipeID
    year := row.VehicleModelYear
    brand := row.BrandName
    model := row.VehicleName
    abbreviation := row.abrevDescricao
    has_adas := row.ADAS.eqStr "Sim"
    windshield_adas := row.adasParabrisa.eqStr "Sim"
    bumper_adas := row.adasParachoque.eqStr "Sim"
    calibration_type := row.tipoRegulagem
    rearview_camera := row.cameraRetrovisor.eqStr "Sim"
    matrix_lights := row.faroisMatrix.eqStr "Sim"
    search_score := round2 score }

/-!  ## SearchCache (src/modules/search.py lines 16-91)

Cache keys in the source are the md5 of `query.lower().strip()` plus a
canonical serialization of the filter dict; the model keys entries directly
by that pre-hash data (md5 is injective on the inputs in scope).  File
persistence (`load_cache` / `save_cache`) is I/O glue outside the model.
Timestamps are integers; the TTL `cache_duration` uses the same unit. -/

structure Filters where
  brand : Option String
  year : Option ℤ
  has_adas : Option Bool
  calibration_type : Option String
deriving DecidableEq

/-- The all-`None` filter dict. -/
def Filters.empty : Filters := ⟨none, none, none, none⟩

structure CacheEntry where
  results : List SearchResult
  timestamp : ℤ
  query : String
  filters : Option Filters
deriving DecidableEq

structure SearchCache where
  cache : List ((String × Option Filters) × CacheEntry)
  cache_duration : ℤ
deriving DecidableEq

/-- `SearchCache.get_cache_key` (src/modules/search.py 59-64): lowercased
stripped query together with the (canonically serialized) filters; `None`
and the empty filter dict contribute nothing. -/
def get_cache_key (query : String) (filters : Option Filters) :
    String × Option Filters :=
  (pyLowerS (pyStripS query), filters)

def cacheFind (c : List ((String × Option Filters) × CacheEntry))
    (k : String × Option Filters) : Option CacheEntry :=
  (c.find? (fun p => p.1 = k)).map (·.2)

def cacheRemove (c : List ((String × Option Filters) × CacheEntry))
    (k : String × Option Filters) :
    List ((String × Option Filters) × CacheEntry) :=
  c.filter (fun p => !(p.1 = k : Bool))

/-- `SearchCache.get` (src/modules/search.py 66-80): on a present entry,
return its results when `now - timestamp < cache_duration`; otherwise the
expired entry is deleted by the read (lazy eviction).  Returns the value
and the possibly-updated store. -/
def SearchCache.get (sc : SearchCache) (now : ℤ) (query : String)
    (filters : Option Filters) : Option (List SearchResult) × SearchCache :=
  let k := get_cache_key query filters
  match cacheFind sc.cache k with
  | none => (none, sc)
  | some e =>
    if now - e.timestamp < sc.cache_duration then (some e.results, sc)
    else (none, { sc with cache := cacheRemove sc.cache k })

/-- `SearchCache.set` (src/modules/search.py 82-91): unconditional overwrite
stamped with the current time (the `save_cache` disk write is I/O glue). -/
def SearchCache.set (sc : SearchCache) (now : ℤ) (query : String)
    (results : List SearchResult) (filters : Option Filters) : SearchCache :=
  let k := get_cache_key query filters
  let e : CacheEntry := ⟨results, now, query, filters⟩
  if (cacheFind sc.cache k).isSome then
    { sc with cache := sc.cache.map (fun p => if p.1 = k then (k, e) else p) }
  else
    { sc with cache := sc.cache ++ [(k, e)] }

/-!  ## IntelligentSearch (src/modules/search.py lines 150-483)  -/

/-- The fuzzywuzzy scoring functions, external to the repository: the engine
is parametric in them.  In the real library both return integers in
[0, 100]; none of the theorems below need that bound (the engine clamps). -/
structure Fuzz where
  partRatio : String → String → ℕ   -- fuzz.partial_ratio
  fullRatio : String → String → ℕ   -- fuzz.ratio

structure LogEntry where
  timestamp : ℤ
  query : String
  results_count : ℕ
  method : String
deriving DecidableEq

structure Analytics where
  total_searches : ℕ
  cache_hits : ℕ
  last_searches : List LogEntry
deriving DecidableEq

/-- The engine state: the database (a loaded dataframe or `None`), the
cache, and the analytics dict (src/modules/search.py 155-163). -/
structure IntelligentSearch where
  db : Option (List Row)
  cache : SearchCache
  search_analytics : Analytics
deriving DecidableEq

/-- The stats dict returned by `search`; keys absent from a given return
path are `none`.  The wall-clock `search_time_ms` entry is not modelled
(real elapsed time is outside a shallow embedding). -/
structure Stats where
  total_results : Option ℕ
  cache_hit : Option Bool
  search_method : Option String
  query_normalized : Option String
  error : Option String
deriving DecidableEq

/-- `IntelligentSearch._calculate_relevance_score`
(src/modules/search.py 284-338).  `query` is the normalized query,
`numbers`/`brands` its extracted digit runs and brand tokens.  The additive
weights are exact rationals; the result is clamped to 100. -/
def calculate_relevance_score (fz : Fuzz) (query : String) (row : Row)
    (numbers brands : List String) : ℚ :=
  let qU := pyUpperS query
  let brand_name := pyUpperS row.BrandName.pyStr
  let s1 : ℚ := if containsStr qU brand_name then 50 else 0
  let s2 : ℚ := 40 * (brands.filter (fun b => containsStr brand_name b)).length
  let vehicle_name := row.VehicleName.pyStr
  let s3 : ℚ :=
    if vehicle_name ≠ "" then
      (fz.partRatio qU (pyUpperS vehicle_name) : ℚ) * (6/10)
    else 0
  let abbreviation := row.abrevDescricao.pyStr
  let s4 : ℚ :=
    if abbreviation ≠ "" && abbreviation ≠ "nan" then
      (fz.fullRatio qU (pyUpperS abbreviation) : ℚ) * (4/10)
    else 0
  let vehicle_year := row.VehicleModelYear.pyStr
  let s5 : ℚ := 30 * (numbers.filter (fun n => containsStr vehicle_year n)).length
  let fipe_id := row.FipeID.pyStr
  let s6 : ℚ := 25 * (numbers.filter
    (fun n => n.data.length ≥ 3 && containsStr fipe_id n)).length
  let s7 : ℚ := if row.ADAS.eqStr "Sim" then 10 else 0
  let combined_text := pyUpperS (brand_name ++ " " ++ vehicle_name ++ " " ++ abbreviation)
  let s8 : ℚ :=
    if pyStripS combined_text ≠ "" then
      (fz.partRatio qU combined_text : ℚ) * (3/10)
    else 0
  min (s1 + s2 + s3 + s4 + s5 + s6 + s7 + s8) 100

/-- `IntelligentSearch._search_by_fipe` (src/modules/search.py 239-257):
exact `FipeID == int(query)` match over the whole dataframe, every match
converted with score 100. -/
def search_by_fipe (db : Option (List Row)) (fipe_id : String) : List SearchResult :=
  let fipe_int := parseDigits fipe_id.data
  match db with
  | none => []
  | some rows => (rows.filter (fun r => r.FipeID.eqInt fipe_int)).map
      (fun r => row_to_result_dict r 100)

/-- The qualifying pass of `_search_by_text`: score each row in dataset
order and keep those scoring strictly above 60
(src/modules/search.py 272-277). -/
def qualifyingResults (fz : Fuzz) (query : String) (rows : List Row) :
    List SearchResult :=
  let numbers := extract_numbers query
  let brands := extract_brands query
  rows.filterMap (fun row =>
    let score := calculate_relevance_score fz query row numbers brands
    if 60 < score then some (row_to_result_dict row score) else none)

/-- Stable insertion of one element into a list sorted by descending
`search_score`: the new element (which comes earlier in the original
order) goes after every element with an equal score. -/
def insDesc (x : SearchResult) : List SearchResult → List SearchResult
  | [] => [x]
  | y :: ys => if x.search_score < y.search_score then y :: insDesc x ys
               else x :: y :: ys

/-- Python's stable `list.sort(key=score, reverse=True)`: a stable sort's
output is uniquely determined, so stable insertion sort is an exact model. -/
def sortDesc : List SearchResult → List SearchResult
  | [] => []
  | x :: xs => insDesc x (sortDesc xs)

/-- `IntelligentSearch._search_by_text` (src/modules/search.py 259-282).
The `filters` parameter of the source function is unused in its body. -/
def search_by_text (fz : Fuzz) (db : Option (List Row)) (query : String)
    (max_results : ℕ) : List SearchResult :=
  match db with
  | none => []
  | some rows =>
    if rows.isEmpty then []
    else (sortDesc (qualifyingResults fz query rows)).take max_results

/-- `IntelligentSearch._apply_filters` (src/modules/search.py 357-378).
Returns `none` when the source would raise: the brand and calibration
filters call `.upper()` / `.lower()` on the record's field, which throws
`AttributeError` when that field is not a string (e.g. NaN).  Filter keys
are checked in the fixed order brand, year, has_adas, calibration_type;
since each step is an independent conjunct this agrees with any dict
iteration order. -/
def apply_filters (results : List SearchResult) (filters : Filters) :
    Option (List SearchResult) := do
  let r1 ←
    match filters.brand with
    | some b =>
      if b ≠ "" then
        if results.all (fun r => r.brand.isStr) then
          some (results.filter (fun r =>
            containsStr (pyUpperS r.brand.pyStr) (pyUpperS b)))
        else none
      else some results
    | none => some results
  let r2 :=
    match filters.year with
    | some y => r1.filter (fun r => toString y = r.year.pyStr)
    | none => r1
  let r3 :=
    match filters.has_adas with
    | some b => r2.filter (fun r => r.has_adas = b)
    | none => r2
  match filters.calibration_type with
  | some ct =>
    if ct ≠ "" then
      if r3.all (fun r => r.calibration_type.isStr) then
        some (r3.filter (fun r =>
          containsStr (pyLowerS r.calibration_type.pyStr) (pyLowerS ct)))
      else none
    else some r3
  | none => some r3

/-- `IntelligentSearch._log_search` (src/modules/search.py 380-390): prepend
the new entry and keep only the most recent 50. -/
def log_search (entry : LogEntry) (log : List LogEntry) : List LogEntry :=
  (entry :: log).take 50

/-- Truthiness of the cached value in `if cached_results:`
(src/modules/search.py 182): `None` and the empty list are both falsy. -/
def truthyResults : Option (List SearchResult) → Bool
  | some (_ :: _) => true
  | _ => false

/-- `IntelligentSearch.search` (src/modules/search.py 165-237).  `now` is
the wall clock for this call; `Option` is `none` exactly when the source
would raise (only possible inside `_apply_filters`).  The result triple is
(results, stats, new engine state). -/
def IntelligentSearch.search (fz : Fuzz) (eng : IntelligentSearch) (now : ℤ)
    (query : String) (filters : Option Filters := none)
    (max_results : ℕ := 10) :
    Option (List SearchResult × Stats × IntelligentSearch) :=
  let an1 := { eng.search_analytics with
               total_searches := eng.search_analytics.total_searches + 1 }
  let (cached_results, c1) := eng.cache.get now query filters
  if truthyResults cached_results then
    let rs := cached_results.getD []
    some (rs,
      { total_results := some rs.length, cache_hit := some true,
        search_method := some "cache", query_normalized := none, error := none },
      { eng with
          cache := c1,
          search_analytics := { an1 with cache_hits := an1.cache_hits + 1 } })
  else
    let normalized_query := normalize_text (.strv query)
    if (pyStripS normalized_query).data.isEmpty then
      some ([],
        { total_results := none, cache_hit := none, search_method := none,
          query_normalized := none,
          error := some "Query vazia apos normalizacao" },
        { eng with cache := c1, search_analytics := an1 })
    else
      let fipe_results :=
        if pyIsDigitS normalized_query then
          search_by_fipe eng.db normalized_query
        else []
      let (results0, search_method) :=
        if pyIsDigitS normalized_query ∧ fipe_results ≠ [] then
          (fipe_results, "fipe_id")
        else (search_by_text fz eng.db normalized_query max_results,
              "text_search")
      match (match filters with
             | some f => apply_filters results0 f
             | none => some results0) with
      | none => none
      | some results1 =>
        let results2 := results1.take max_results
        let c2 := c1.set now query results2 filters
        let an2 := { an1 with
          last_searches :=
            log_search ⟨now, query, results2.length, search_method⟩
              an1.last_searches }
        some (results2,
          { total_results := some results2.length, cache_hit := some false,
            search_method := some search_method,
            query_normalized := some normalized_query, error := none },
          { eng with cache := c2, search_analytics := an2 })

/-!  ## advanced_search (src/modules/search.py 429-483)

`Series.str.contains(pat)` matches `pat` as a regular expression
(`regex=True` is the pandas default), via `re.search`.  The criteria used
by this repository are plain words, for which regex search coincides with
substring search, but the code itself performs regex matching.  The
matcher below is faithful to `re.search` for patterns built from literal
characters and the `.` wildcard; the theorems only instantiate it on such
patterns. -/

/-- Match a literal-and-dot pattern at the start of the text. -/
def dotMatch : List Char → List Char → Bool
  | [], _ => true
  | _ :: _, [] => false
  | p :: ps, c :: cs => (p = '.' || p = c) && dotMatch ps cs

/-- `re.search(pat, s)` viewed as a Bool: the pattern matches at some
position. -/
def regexSearch (pat s : List Char) : Bool :=
  s.tails.any (fun t => dotMatch pat t)

def regexSearchStr (pat s : String) : Bool := regexSearch pat.data s.data

/-- Regex metacharacters of Python `re`; a pattern avoiding all of them is
matched literally, so `str.contains` degenerates to a substring test. -/
def isRegexMeta (c : Char) : Bool :=
  c = '.' || c = '*' || c = '+' || c = '?' || c = '[' || c = ']' ||
  c = '(' || c = ')' || c = '\x7b' || c = '\x7d' || c = '|' || c = '^' ||
  c = '$' || c = '\\'

def regexLiteral (s : String) : Prop := s.data.all (fun c => !isRegexMeta c) = true

/-- The advanced-search criteria dict (src/modules/search.py 433-440; the
`features` key appears in the docstring but is never read by the code). -/
structure Criteria where
  brand : Option String
  year_range : Option (ℤ × ℤ)
  has_adas : Option Bool
  calibration_type : Option String
deriving DecidableEq

/-- `criteria.get('brand')` truthiness: present and nonempty. -/
def strTruthy : Option String → Bool
  | some s => !s.isEmpty
  | none => false

/-- Year-range comparison on a cell: pandas `>= / <=` on a numeric cell;
NaN compares false.  A string cell cannot be compared with an int — the
source raises `TypeError` there, which the caller handles via the
`Option` in `advanced_search`. -/
def cellYearIn (v : CellVal) (lo hi : ℤ) : Bool :=
  match v with
  | .num q => (lo : ℚ) ≤ q && q ≤ (hi : ℚ)
  | _ => false

/-- `IntelligentSearch.advanced_search` (src/modules/search.py 429-483):
progressive brand / year-range / ADAS / calibration filters over the full
dataframe, every surviving row converted with fixed score 95, capped at 50
results.  `none` models the `TypeError` pandas raises when the year-range
comparison meets a string-valued year cell (the method has no exception
handler). -/
def advanced_search (db : Option (List Row)) (criteria : Criteria) :
    Option (List SearchResult) :=
  match db with
  | none => some []
  | some rows =>
    if rows.isEmpty then some []
    else
      let f1 : List Row :=
        if strTruthy criteria.brand then
          let brand_filter := pyUpperS (criteria.brand.getD "")
          rows.filter (fun r =>
            r.BrandName.isStr &&
            regexSearchStr brand_filter (pyUpperS r.BrandName.pyStr))
        else rows
      let f2opt : Option (List Row) :=
        match criteria.year_range with
        | some (min_year, max_year) =>
          if f1.any (fun r => r.VehicleModelYear.isStr) then none
          else some (f1.filter (fun r => cellYearIn r.VehicleModelYear min_year max_year))
        | none => some f1
      match f2opt with
      | none => none
      | some f2 =>
        let f3 : List Row :=
          match criteria.has_adas with
          | some b => f2.filter (fun r => r.ADAS.eqStr (if b then "Sim" else "Não"))
          | none => f2
        let f4 : List Row :=
          if strTruthy criteria.calibration_type then
            let ct := criteria.calibration_type.getD ""
            f3.filter (fun r =>
              r.tipoRegulagem.isStr &&
              regexSearchStr (pyLowerS ct) (pyLowerS r.tipoRegulagem.pyStr))
          else f3
        some ((f4.map (fun r => row_to_result_dict r 95)).take 50)

/-!  ## DataValidator (src/modules/vehicle_db.py 15-250)  -/

/-- The parts of a validation report that feed the quality score: the
error and warning lists and the `statistics` entry
`missing_data_percentage`, which `_calculate_quality_score` reads with
`.get(..., 0)` (hence the `Option`). -/
structure ValidationReport where
  errors : List String
  warnings : List String
  missing_data_percentage : Option ℚ
deriving DecidableEq

/-- `DataValidator._calculate_quality_score`
(src/modules/vehicle_db.py 182-198): start at 100, subtract 20 per error,
5 per warning, 2 per percentage point of missing data, clamp to [0, 100]. -/
def calculate_quality_score (report : ValidationReport) : ℚ :=
  let score : ℚ := 100
  let score := score - (report.errors.length : ℚ) * 20
  let score := score - (report.warnings.length : ℚ) * 5
  let missing_percentage := report.missing_data_percentage.getD 0
  let score := score - missing_percentage * 2
  max 0 (min 100 score)

/-!  ## DataValidator.clean_dataframe (src/modules/vehicle_db.py 200-250)

Each column operation acts cellwise; pandas `.str` accessors send
non-string cells to NaN, and `Series.replace` (plain, non-regex) replaces
exact whole-cell values only.  The derived `search_text` column is the
upper-cased stripped concatenation of brand, vehicle name and abbreviation
with NaN filled by `''`; if any abbreviation cell is numeric the string
concatenation raises `TypeError`, the surrounding `except` catches it and
the dataframe is returned with every earlier step applied and no
`search_text` assignment (assignment of the column is all-or-nothing since
the right-hand side is computed before assignment). -/

/-- A pandas `.str` method lifted to a cell: non-strings become NaN. -/
def cellStrMap (f : String → String) : CellVal → CellVal
  | .str s => .str (f s)
  | _ => .missing

/-- One `Series.replace(old, new)` step: exact whole-value match. -/
def replaceVal (old new : String) (v : CellVal) : CellVal :=
  if v = .str old then .str new else v

/-- The `brand_mappings` loop (src/modules/vehicle_db.py 212-220), applied
after strip + upper. -/
def cleanBrandVal (v : CellVal) : CellVal :=
  replaceVal "RANGE ROVER" "LAND ROVER"
    (replaceVal "VW" "VOLKSWAGEN"
      (replaceVal "MERCEDES BENZ" "MERCEDES-BENZ"
        (replaceVal "MERCEDES" "MERCEDES-BENZ"
          (cellStrMap (fun s => pyUpperS (pyStripS s)) v))))

/-- The ADAS dict replace (src/modules/vehicle_db.py 225): a simultaneous
exact-value mapping. -/
def adasReplaceDict (v : CellVal) : CellVal :=
  if v = .str "sim" then .str "Sim"
  else if v = .str "não" then .str "Não"
  else if v = .str "nao" then .str "Não"
  else v

/-- ADAS cleaning (src/modules/vehicle_db.py 223-225): strip, capitalize,
then the dict replace. -/
def cleanAdasVal (v : CellVal) : CellVal :=
  adasReplaceDict (cellStrMap (fun s => pyCapitalizeS (pyStripS s)) v)

/-- `pd.to_numeric(col, errors='coerce')` on a cell: numbers unchanged,
parsable strings (optional sign, digits, optional fraction, surrounding
whitespace allowed) become numbers, everything else NaN. -/
def parseDecimal (l : List Char) : Option ℚ :=
  let l := pyStripL l
  let (sgn, l) :=
    match l with
    | '-' :: rest => ((-1 : ℚ), rest)
    | '+' :: rest => ((1 : ℚ), rest)
    | _ => ((1 : ℚ), l)
  let intPart := l.takeWhile isAsciiDigit
  let rest := l.dropWhile isAsciiDigit
  let mkNat (ds : List Char) : ℚ :=
    ((ds.foldl (fun acc c => acc * 10 + (c.toNat - '0'.toNat)) 0 : ℕ) : ℚ)
  match rest with
  | [] => if intPart.isEmpty then none else some (sgn * mkNat intPart)
  | '.' :: frac =>
    if frac.all isAsciiDigit && !(intPart.isEmpty && frac.isEmpty) then
      some (sgn * (mkNat intPart + mkNat frac / (10 ^ frac.length : ℕ)))
    else none
  | _ => none

def toNumericVal (v : CellVal) : CellVal :=
  match v with
  | .num q => .num q
  | .missing => .missing
  | .str s =>
    match parseDecimal s.data with
    | some q => .num q
    | none => .missing

/-- The per-column steps of `clean_dataframe` on one row
(src/modules/vehicle_db.py 207-237): brand, ADAS, vehicle-name, year and
FipeID columns; all other columns (including the abbreviation, which the
source never cleans) are untouched. -/
def cleanRowFields (r : Row) : Row :=
  { r with
      BrandName := cleanBrandVal r.BrandName,
      ADAS := cleanAdasVal r.ADAS,
      VehicleName := cellStrMap pyStripS r.VehicleName,
      VehicleModelYear := toNumericVal r.VehicleModelYear,
      FipeID := toNumericVal r.FipeID }

/-- `col.fillna('')` as an operand of string concatenation: strings pass,
NaN becomes `""`, a numeric cell makes the concatenation raise. -/
def fillnaStr : CellVal → Option String
  | .str s => some s
  | .missing => some ""
  | .num _ => none

/-- The `search_text` value for one row (src/modules/vehicle_db.py 240-245). -/
def searchTextVal (r : Row) : Option String :=
  match fillnaStr r.BrandName, fillnaStr r.VehicleName, fillnaStr r.abrevDescricao with
  | some b, some v, some a => some (pyStripS (pyUpperS (b ++ " " ++ v ++ " " ++ a)))
  | _, _, _ => none

/-- `DataValidator.clean_dataframe` (src/modules/vehicle_db.py 200-250) on
a dataframe with the ingestion contract's columns. -/
def clean_dataframe (rows : List Row) : List Row :=
  let A := rows.map cleanRowFields
  if A.all (fun r => (searchTextVal r).isSome) then
    A.map (fun r => { r with searchText := .str ((searchTextVal r).getD "") })
  else A

/-!  ## Concrete fixtures

Rows taken from the repository's own demo/test data
(src/modules/search.py 558-566, src/modules/vehicle_db.py 399-433), used to
instantiate the theorems below on concrete inputs. -/

/-- The BMW 118i row of the source's test dataset. -/
def testRow : Row :=
  { FipeID := .num 92983, BrandName := .str "BMW",
    VehicleName := .str "118i M Sport 1.5 TB 12V Aut. 5p",
    VehicleModelYear := .num 2024, ADAS := .str "Sim",
    abrevDescricao := .str "118i M Sport", adasParabrisa := .str "Sim",
    adasParachoque := .str "Sim", tipoRegulagem := .str "Dinamica",
    cameraRetrovisor := .str "Não", faroisMatrix := .str "Não",
    searchText := .missing }

/-- Fuzzy functions returning 0, the simplest instantiation of the external
library parameter. -/
def fz0 : Fuzz := ⟨fun _ _ => 0, fun _ _ => 0⟩

/-- An engine over the single-row dataset with an empty cache. -/
def eng0 : IntelligentSearch := ⟨some [testRow], ⟨[], 24⟩, ⟨0, 0, []⟩⟩

/-- An engine whose dataset contains the same FipeID twice. -/
def engDup : IntelligentSearch := ⟨some [testRow, testRow], ⟨[], 24⟩, ⟨0, 0, []⟩⟩

/-- An engine over an empty dataset (text searches return no results). -/
def engEmpty : IntelligentSearch := ⟨some [], ⟨[], 24⟩, ⟨0, 0, []⟩⟩

/-!  ## Lemmas about the character tables  -/

theorem data_mk (l : List Char) : (String.mk l).data = l := rfl

theorem caseTable_fst_fresh :
    ∀ p ∈ caseTable, caseTable.find? (fun q => q.2 = p.1) = none := by decide

theorem caseTable_snd_fresh :
    ∀ p ∈ caseTable, caseTable.find? (fun q => q.1 = p.2) = none := by decide

theorem caseTable_no_space :
    ∀ p ∈ caseTable, isPySpace p.1 = false ∧ isPySpace p.2 = false := by decide

theorem caseTable_fst_ne :
    ∀ p ∈ caseTable, p.1 ≠ 's' ∧ p.1 ≠ 'n' := by decide

theorem pyUpperChar_of_none {c : Char}
    (h : caseTable.find? (fun p => p.2 = c) = none) : pyUpperChar c = c := by
  simp [pyUpperChar, h]

theorem pyUpperChar_of_some {c : Char} {p : Char × Char}
    (h : caseTable.find? (fun q => q.2 = c) = some p) : pyUpperChar c = p.1 := by
  simp [pyUpperChar, h]

theorem pyLowerChar_of_none {c : Char}
    (h : caseTable.find? (fun p => p.1 = c) = none) : pyLowerChar c = c := by
  simp [pyLowerChar, h]

theorem pyLowerChar_of_some {c : Char} {p : Char × Char}
    (h : caseTable.find? (fun q => q.1 = c) = some p) : pyLowerChar c = p.2 := by
  simp [pyLowerChar, h]

theorem pyUpperChar_idem (c : Char) : pyUpperChar (pyUpperChar c) = pyUpperChar c := by
  cases h : caseTable.find? (fun p => p.2 = c) with
  | none => rw [pyUpperChar_of_none h, pyUpperChar_of_none h]
  | some p =>
    rw [pyUpperChar_of_some h,
      pyUpperChar_of_none (caseTable_fst_fresh p (List.mem_of_find?_eq_some h))]

theorem pyLowerChar_idem (c : Char) : pyLowerChar (pyLowerChar c) = pyLowerChar c := by
  cases h : caseTable.find? (fun p => p.1 = c) with
  | none => rw [pyLowerChar_of_none h, pyLowerChar_of_none h]
  | some p =>
    rw [pyLowerChar_of_some h,
      pyLowerChar_of_none (caseTable_snd_fresh p (List.mem_of_find?_eq_some h))]

theorem isPySpace_pyUpperChar (c : Char) :
    isPySpace (pyUpperChar c) = isPySpace c := by
  cases h : caseTable.find? (fun p => p.2 = c) with
  | none => rw [pyUpperChar_of_none h]
  | some p =>
    have hpc : p.2 = c := by simpa using List.find?_some h
    have hns := caseTable_no_space p (List.mem_of_find?_eq_some h)
    rw [pyUpperChar_of_some h, hns.1, ← hpc, hns.2]

theorem isPySpace_pyLowerChar (c : Char) :
    isPySpace (pyLowerChar c) = isPySpace c := by
  cases h : caseTable.find? (fun p => p.1 = c) with
  | none => rw [pyLowerChar_of_none h]
  | some p =>
    have hpc : p.1 = c := by simpa using List.find?_some h
    have hns := caseTable_no_space p (List.mem_of_find?_eq_some h)
    rw [pyLowerChar_of_some h, hns.2, ← hpc, hns.1]

theorem pyUpperChar_ne_s_n (c : Char) : pyUpperChar c ≠ 's' ∧ pyUpperChar c ≠ 'n' := by
  cases h : caseTable.find? (fun p => p.2 = c) with
  | none =>
    rw [pyUpperChar_of_none h]
    constructor <;> rintro rfl <;> exact absurd h (by decide)
  | some p =>
    rw [pyUpperChar_of_some h]
    exact caseTable_fst_ne p (List.mem_of_find?_eq_some h)

/-!  ## Lemmas about dropWhile and strip  -/

theorem dropWhile_dropWhile (p : Char → Bool) (l : List Char) :
    (l.dropWhile p).dropWhile p = l.dropWhile p := by
  induction l with
  | nil => rfl
  | cons c cs ih =>
    by_cases h : p c
    · simp [List.dropWhile_cons, h, ih]
    · simp [List.dropWhile_cons, h]

theorem head?_dropWhile_false (p : Char → Bool) (l : List Char) :
    ∀ c, (l.dropWhile p).head? = some c → p c = false := by
  induction l with
  | nil => intro c hc; simp at hc
  | cons a as ih =>
    intro c hc
    by_cases h : p a
    · exact ih c (by simpa [List.dropWhile_cons, h] using hc)
    · simp [List.dropWhile_cons, h] at hc
      subst hc
      simpa using h

theorem dropWhile_eq_self (p : Char → Bool) (l : List Char)
    (h : ∀ c, l.head? = some c → p c = false) : l.dropWhile p = l := by
  cases l with
  | nil => rfl
  | cons a as => simp [List.dropWhile_cons, h a rfl]

theorem dropWhile_map (f : Char → Char) (p : Char → Bool)
    (hf : ∀ c, p (f c) = p c) (l : List Char) :
    (l.map f).dropWhile p = (l.dropWhile p).map f := by
  induction l with
  | nil => rfl
  | cons a as ih =>
    by_cases h : p a
    · simp [List.dropWhile_cons, h, hf, ih]
    · simp [List.dropWhile_cons, h, hf]

theorem pyStripL_map (f : Char → Char) (hf : ∀ c, isPySpace (f c) = isPySpace c)
    (l : List Char) : pyStripL (l.map f) = (pyStripL l).map f := by
  unfold pyStripL
  rw [dropWhile_map f _ hf, ← List.map_reverse, dropWhile_map f _ hf,
    ← List.map_reverse]

theorem head?_of_pref {l₁ l₂ : List Char} (h : l₁ <+: l₂) {c : Char}
    (hc : l₁.head? = some c) : l₂.head? = some c := by
  obtain ⟨t, rfl⟩ := h
  cases l₁ <;> simp_all

theorem pyStripL_pref (l : List Char) : pyStripL l <+: l.dropWhile isPySpace := by
  have hs : ((l.dropWhile isPySpace).reverse.dropWhile isPySpace) <:+
      (l.dropWhile isPySpace).reverse := List.dropWhile_suffix _
  have := List.reverse_prefix.mpr hs
  simpa [pyStripL] using this

theorem head?_pyStripL (l : List Char) :
    ∀ c, (pyStripL l).head? = some c → isPySpace c = false := by
  intro c hc
  exact head?_dropWhile_false isPySpace l c (head?_of_pref (pyStripL_pref l) hc)

theorem getLast?_pyStripL (l : List Char) :
    ∀ c, (pyStripL l).getLast? = some c → isPySpace c = false := by
  intro c hc
  have : ((l.dropWhile isPySpace).reverse.dropWhile isPySpace).head? = some c := by
    simpa [pyStripL] using hc
  exact head?_dropWhile_false isPySpace _ c this

theorem strip_eq_self_of (l : List Char)
    (h1 : ∀ c, l.head? = some c → isPySpace c = false)
    (h2 : ∀ c, l.getLast? = some c → isPySpace c = false) :
    pyStripL l = l := by
  unfold pyStripL
  rw [dropWhile_eq_self _ _ h1,
    dropWhile_eq_self _ _ (fun c hc => h2 c (by simpa using hc)),
    List.reverse_reverse]

theorem pyStripL_idem (l : List Char) : pyStripL (pyStripL l) = pyStripL l :=
  strip_eq_self_of _ (head?_pyStripL l) (getLast?_pyStripL l)

theorem pyUpperL_idem (l : List Char) : pyUpperL (pyUpperL l) = pyUpperL l := by
  simp only [pyUpperL, List.map_map]
  exact List.map_congr_left (fun c _ => pyUpperChar_idem c)

theorem pyLowerL_idem (l : List Char) : pyLowerL (pyLowerL l) = pyLowerL l := by
  simp only [pyLowerL, List.map_map]
  exact List.map_congr_left (fun c _ => pyLowerChar_idem c)

theorem pyStripL_pyUpperL (l : List Char) :
    pyStripL (pyUpperL l) = pyUpperL (pyStripL l) :=
  pyStripL_map pyUpperChar isPySpace_pyUpperChar l

/-!  ## Lemmas about capitalize and the cleaning steps  -/

theorem pyCapitalizeL_idem (l : List Char) :
    pyCapitalizeL (pyCapitalizeL l) = pyCapitalizeL l := by
  cases l with
  | nil => rfl
  | cons c cs =>
    simp only [pyCapitalizeL, pyUpperChar_idem, List.map_map, List.cons.injEq,
      true_and]
    exact List.map_congr_left (fun d _ => pyLowerChar_idem d)

theorem pyCapitalizeL_head {l : List Char} {c : Char}
    (hc : (pyCapitalizeL l).head? = some c) :
    ∃ d, l.head? = some d ∧ isPySpace c = isPySpace d := by
  cases l with
  | nil => simp [pyCapitalizeL] at hc
  | cons a as =>
    refine ⟨a, rfl, ?_⟩
    simp only [pyCapitalizeL, List.head?_cons, Option.some.injEq] at hc
    rw [← hc, isPySpace_pyUpperChar]

theorem pyCapitalizeL_getLast {l : List Char} {c : Char}
    (hc : (pyCapitalizeL l).getLast? = some c) :
    ∃ d, l.getLast? = some d ∧ isPySpace c = isPySpace d := by
  cases l with
  | nil => simp [pyCapitalizeL] at hc
  | cons a as =>
    cases has : as.reverse with
    | nil =>
      have : as = [] := by simpa using congrArg List.reverse has
      subst this
      simp only [pyCapitalizeL, List.map_nil, List.getLast?_singleton,
        Option.some.injEq] at hc
      refine ⟨a, by simp, ?_⟩
      rw [← hc, isPySpace_pyUpperChar]
    | cons e es =>
      have hase : as = es.reverse ++ [e] := by
        have h := congrArg List.reverse has
        simpa [List.reverse_cons] using h
      subst hase
      have hcap : pyCapitalizeL (a :: (es.reverse ++ [e])) =
          (pyUpperChar a :: es.reverse.map pyLowerChar) ++ [pyLowerChar e] := by
        simp [pyCapitalizeL, List.map_append]
      rw [hcap, List.getLast?_concat] at hc
      obtain rfl := Option.some.inj hc
      refine ⟨e, ?_, ?_⟩
      · show ((a :: es.reverse) ++ [e]).getLast? = some e
        exact List.getLast?_concat _
      · exact isPySpace_pyLowerChar e

theorem pyStripL_pyCapitalizeL (l : List Char) (hl : pyStripL l = l) :
    pyStripL (pyCapitalizeL l) = pyCapitalizeL l := by
  apply strip_eq_self_of
  · intro c hc
    obtain ⟨d, hd, hsp⟩ := pyCapitalizeL_head hc
    rw [hsp]
    exact head?_pyStripL l d (by rw [hl]; exact hd)
  · intro c hc
    obtain ⟨d, hd, hsp⟩ := pyCapitalizeL_getLast hc
    rw [hsp]
    exact getLast?_pyStripL l d (by rw [hl]; exact hd)

theorem pyCapitalizeL_ne_word (l : List Char) (w : List Char)
    (hw : ∃ e es, w = e :: es ∧ (e = 's' ∨ e = 'n')) :
    pyCapitalizeL l ≠ w := by
  obtain ⟨e, es, rfl, he⟩ := hw
  cases l with
  | nil => simp [pyCapitalizeL]
  | cons a as =>
    simp only [pyCapitalizeL, ne_eq, List.cons.injEq, not_and]
    intro hhead
    exfalso
    rcases he with rfl | rfl
    · exact (pyUpperChar_ne_s_n a).1 hhead
    · exact (pyUpperChar_ne_s_n a).2 hhead

theorem adasReplaceDict_cap (l : List Char) :
    adasReplaceDict (.str (String.mk (pyCapitalizeL l))) =
      .str (String.mk (pyCapitalizeL l)) := by
  have h1 : pyCapitalizeL l ≠ "sim".data :=
    pyCapitalizeL_ne_word l _ ⟨'s', _, rfl, Or.inl rfl⟩
  have h2 : pyCapitalizeL l ≠ "não".data :=
    pyCapitalizeL_ne_word l _ ⟨'n', _, rfl, Or.inr rfl⟩
  have h3 : pyCapitalizeL l ≠ "nao".data :=
    pyCapitalizeL_ne_word l _ ⟨'n', _, rfl, Or.inr rfl⟩
  simp only [adasReplaceDict]
  rw [if_neg, if_neg, if_neg]
  · intro h
    exact h3 (congrArg String.data (CellVal.str.inj h))
  · intro h
    exact h2 (congrArg String.data (CellVal.str.inj h))
  · intro h
    exact h1 (congrArg String.data (CellVal.str.inj h))

theorem cleanAdasVal_idem (v : CellVal) :
    cleanAdasVal (cleanAdasVal v) = cleanAdasVal v := by
  cases v with
  | num q => rfl
  | missing => rfl
  | str s =>
    have h1 : cleanAdasVal (.str s) =
        .str (String.mk (pyCapitalizeL (pyStripL s.data))) := by
      simp only [cleanAdasVal, cellStrMap, pyCapitalizeS, pyStripS, data_mk]
      exact adasReplaceDict_cap _
    rw [h1]
    have hstr : pyStripL (pyCapitalizeL (pyStripL s.data)) =
        pyCapitalizeL (pyStripL s.data) :=
      pyStripL_pyCapitalizeL _ (pyStripL_idem s.data)
    have h2 : cleanAdasVal (.str (String.mk (pyCapitalizeL (pyStripL s.data)))) =
        .str (String.mk (pyCapitalizeL (pyStripL s.data))) := by
      simp only [cleanAdasVal, cellStrMap, pyCapitalizeS, pyStripS, data_mk]
      rw [hstr, pyCapitalizeL_idem]
      exact adasReplaceDict_cap _
    rw [h2]

theorem cleanBrandVal_post (u : List Char) (hu : pyUpperL (pyStripL u) = u) :
    cleanBrandVal (cleanBrandVal (.str (String.mk u))) =
      cleanBrandVal (.str (String.mk u)) := by
  have hs : cleanBrandVal (.str (String.mk u)) =
      replaceVal "RANGE ROVER" "LAND ROVER" (replaceVal "VW" "VOLKSWAGEN"
        (replaceVal "MERCEDES BENZ" "MERCEDES-BENZ"
          (replaceVal "MERCEDES" "MERCEDES-BENZ" (.str (String.mk u))))) := by
    simp only [cleanBrandVal, cellStrMap, pyUpperS, pyStripS, data_mk, hu]
  by_cases h1 : String.mk u = "MERCEDES"
  · rw [hs, h1]; decide
  · by_cases h2 : String.mk u = "MERCEDES BENZ"
    · rw [hs, h2]; decide
    · by_cases h3 : String.mk u = "VW"
      · rw [hs, h3]; decide
      · by_cases h4 : String.mk u = "RANGE ROVER"
        · rw [hs, h4]; decide
        · have e1 : replaceVal "MERCEDES" "MERCEDES-BENZ" (.str (String.mk u)) =
              .str (String.mk u) := by
            simp only [replaceVal]
            rw [if_neg]
            intro h
            exact h1 (CellVal.str.inj h)
          have e2 : replaceVal "MERCEDES BENZ" "MERCEDES-BENZ" (.str (String.mk u)) =
              .str (String.mk u) := by
            simp only [replaceVal]
            rw [if_neg]
            intro h
            exact h2 (CellVal.str.inj h)
          have e3 : replaceVal "VW" "VOLKSWAGEN" (.str (String.mk u)) =
              .str (String.mk u) := by
            simp only [replaceVal]
            rw [if_neg]
            intro h
            exact h3 (CellVal.str.inj h)
          have e4 : replaceVal "RANGE ROVER" "LAND ROVER" (.str (String.mk u)) =
              .str (String.mk u) := by
            simp only [replaceVal]
            rw [if_neg]
            intro h
            exact h4 (CellVal.str.inj h)
          have hchain : cleanBrandVal (.str (String.mk u)) = .str (String.mk u) := by
            rw [hs, e1, e2, e3, e4]
          rw [hchain, hchain]

theorem cleanBrandVal_idem (v : CellVal) :
    cleanBrandVal (cleanBrandVal v) = cleanBrandVal v := by
  cases v with
  | num q => rfl
  | missing => rfl
  | str s =>
    have hu : pyUpperL (pyStripL (pyUpperL (pyStripL s.data))) =
        pyUpperL (pyStripL s.data) := by
      rw [pyStripL_pyUpperL, pyStripL_idem, pyUpperL_idem]
    have h1 : cleanBrandVal (.str s) =
        cleanBrandVal (.str (String.mk (pyUpperL (pyStripL s.data)))) := by
      simp only [cleanBrandVal, cellStrMap, pyUpperS, pyStripS, data_mk, hu]
    rw [h1]
    exact cleanBrandVal_post _ hu

theorem toNumericVal_idem (v : CellVal) :
    toNumericVal (toNumericVal v) = toNumericVal v := by
  cases v with
  | num q => rfl
  | missing => rfl
  | str s =>
    simp only [toNumericVal]
    cases parseDecimal s.data <;> rfl

theorem cleanVehicleVal_idem (v : CellVal) :
    cellStrMap pyStripS (cellStrMap pyStripS v) = cellStrMap pyStripS v := by
  cases v with
  | num q => rfl
  | missing => rfl
  | str s =>
    simp only [cellStrMap, pyStripS, data_mk, CellVal.str.injEq]
    rw [pyStripL_idem]

theorem cleanRowFields_idem (r : Row) :
    cleanRowFields (cleanRowFields r) = cleanRowFields r := by
  simp only [cleanRowFields, cleanBrandVal_idem, cleanAdasVal_idem,
    cleanVehicleVal_idem, toNumericVal_idem]

theorem cleanRowFields_set_st (r : Row) (x : CellVal) :
    cleanRowFields { r with searchText := x } =
      { cleanRowFields r with searchText := x } := rfl

theorem searchTextVal_set_st (r : Row) (x : CellVal) :
    searchTextVal { r with searchText := x } = searchTextVal r := rfl

/-- C6 helper: one cleaned-and-annotated row is a fixed point of the
field-cleaning pass. -/
theorem cleanRowFields_fix (a : Row) (ha : cleanRowFields a = a) (x : CellVal) :
    cleanRowFields { a with searchText := x } = { a with searchText := x } := by
  rw [cleanRowFields_set_st, ha]

/-- C6: cleaning the dataframe is idempotent
(DataValidator.clean_dataframe, src/modules/vehicle_db.py 200-250). -/
theorem spec_C6 (rows : List Row) :
    clean_dataframe (clean_dataframe rows) = clean_dataframe rows := by
  have hfix : ∀ a ∈ rows.map cleanRowFields, cleanRowFields a = a := by
    intro a ha
    obtain ⟨r₀, _, rfl⟩ := List.mem_map.mp ha
    exact cleanRowFields_idem r₀
  have hmapself : (rows.map cleanRowFields).map cleanRowFields =
      rows.map cleanRowFields := by
    rw [List.map_map]
    apply List.map_congr_left
    intro a _
    exact cleanRowFields_idem a
  by_cases h : ((rows.map cleanRowFields).all
      (fun r => (searchTextVal r).isSome)) = true
  · have hres : clean_dataframe rows = (rows.map cleanRowFields).map
        (fun r => { r with searchText := CellVal.str ((searchTextVal r).getD "") }) := by
      simp only [clean_dataframe]
      rw [if_pos h]
    have hAA : ((rows.map cleanRowFields).map
        (fun r => { r with searchText := CellVal.str ((searchTextVal r).getD "") })).map
          cleanRowFields =
        (rows.map cleanRowFields).map
          (fun r => { r with searchText := CellVal.str ((searchTextVal r).getD "") }) := by
      rw [List.map_map]
      apply List.map_congr_left
      intro a ha
      exact cleanRowFields_fix a (hfix a ha) _
    have hall2 : (((rows.map cleanRowFields).map
        (fun r => { r with searchText := CellVal.str ((searchTextVal r).getD "") })).map
          cleanRowFields).all (fun r => (searchTextVal r).isSome) = true := by
      rw [hAA, List.all_map, List.all_eq_true]
      intro x hx
      show (searchTextVal { x with
        searchText := CellVal.str ((searchTextVal x).getD "") }).isSome = true
      rw [searchTextVal_set_st]
      exact List.all_eq_true.mp h x hx
    rw [hres]
    show clean_dataframe _ = _
    simp only [clean_dataframe]
    rw [if_pos hall2, hAA, List.map_map]
    apply List.map_congr_left
    intro a _
    simp only [Function.comp, searchTextVal_set_st]
  · have hres : clean_dataframe rows = rows.map cleanRowFields := by
      simp only [clean_dataframe]
      rw [if_neg h]
    have hall2 : ((rows.map cleanRowFields).map cleanRowFields).all
        (fun r => (searchTextVal r).isSome) = true → False := by
      rw [hmapself]
      exact h
    rw [hres]
    show clean_dataframe _ = _
    simp only [clean_dataframe]
    rw [if_neg hall2, hmapself]

/-!  ## Lemmas for the normalizer (C7)  -/

theorem collapseSp_head_nonsp {d : Char} {r : List Char} {y : Char}
    (hd : isPySpace d = false) (hy : (collapseSp (d :: r)).head? = some y) :
    isPySpace y = false := by
  cases r with
  | nil =>
    simp only [collapseSp, List.head?_cons, Option.some.injEq] at hy
    rw [← hy, if_neg (by simp [hd])]
    exact hd
  | cons e r' =>
    have hcond : (isPySpace d && isPySpace e) = false := by simp [hd]
    simp only [collapseSp, hcond, Bool.false_eq_true, if_false,
      List.head?_cons, Option.some.injEq] at hy
    rw [← hy, if_neg (by simp [hd])]
    exact hd

theorem collapseSp_chain (l : List Char) :
    (collapseSp l).Chain' (fun a b => ¬(isPySpace a = true ∧ isPySpace b = true)) := by
  induction l with
  | nil => simp [collapseSp]
  | cons c t ih =>
    cases t with
    | nil => simp [collapseSp]
    | cons d r =>
      by_cases h : (isPySpace c && isPySpace d) = true
      · have heq : collapseSp (c :: d :: r) = collapseSp (d :: r) := by
          simp [collapseSp, h]
        rw [heq]
        exact ih
      · have heq : collapseSp (c :: d :: r) =
            (if isPySpace c then ' ' else c) :: collapseSp (d :: r) := by
          simp only [collapseSp]
          rw [if_neg h]
        rw [heq, List.chain'_cons']
        refine ⟨?_, ih⟩
        intro y hy
        by_cases hc : isPySpace c = true
        · have hd : isPySpace d = false := by
            cases hsp : isPySpace d
            · rfl
            · exact absurd (by simp [hc, hsp]) h
          have hy' : isPySpace y = false :=
            collapseSp_head_nonsp hd (Option.mem_def.mp hy)
          simp [hy']
        · simp only [if_neg hc]
          intro hcon
          exact hc hcon.1

theorem chain'_pyStripL {P : Char → Char → Prop} (hsymm : ∀ a b, P a b → P b a)
    (l : List Char) (h : l.Chain' P) : (pyStripL l).Chain' P := by
  have h1 : (l.dropWhile isPySpace).Chain' P :=
    h.suffix (List.dropWhile_suffix _)
  have h2 : ((l.dropWhile isPySpace).reverse).Chain' P := by
    rw [List.chain'_reverse]
    exact List.Chain'.imp (fun a b hab => hsymm a b hab) h1
  have h3 : ((l.dropWhile isPySpace).reverse.dropWhile isPySpace).Chain' P :=
    h2.suffix (List.dropWhile_suffix _)
  show (((l.dropWhile isPySpace).reverse.dropWhile isPySpace).reverse).Chain' P
  rw [List.chain'_reverse]
  exact List.Chain'.imp (fun a b hab => hsymm a b hab) h3

/-- C7: `normalize_text` is a deterministic total function: non-string input
yields `""`, `normalize_text "É-É" = "E E"`, `normalize_text "" = ""`, and
for every string the output has collapsed single spaces (no two adjacent
whitespace characters) and no leading or trailing whitespace. -/
theorem spec_C7 :
    normalize_text .other = "" ∧
    normalize_text (.strv "É-É") = "E E" ∧
    normalize_text (.strv "") = "" ∧
    ∀ s : String,
      ((normalize_text (.strv s)).data.Chain'
        (fun a b => ¬(isPySpace a = true ∧ isPySpace b = true))) ∧
      (∀ c, (normalize_text (.strv s)).data.head? = some c → isPySpace c = false) ∧
      (∀ c, (normalize_text (.strv s)).data.getLast? = some c → isPySpace c = false) := by
  refine ⟨rfl, by decide, rfl, ?_⟩
  intro s
  refine ⟨?_, ?_, ?_⟩
  · show (pyStripL (collapseSp (subNonWord
        ((pyStripL (pyUpperL s.data)).map foldAccentChar)))).Chain' _
    exact chain'_pyStripL (fun a b hab hba => hab ⟨hba.2, hba.1⟩) _
      (collapseSp_chain _)
  · exact head?_pyStripL _
  · exact getLast?_pyStripL _

/-- C7 witness: the structural facts applied at the concrete input " a,,b ". -/
theorem spec_C7_witness : isPySpace 'A' = false ∧ isPySpace 'B' = false :=
  ⟨(spec_C7.2.2.2 " a,,b ").2.1 'A' (by decide),
   (spec_C7.2.2.2 " a,,b ").2.2 'B' (by decide)⟩

/-- C5: the data-quality score equals 100 minus 20 per error, 5 per
warning, 2 per percentage point of missing data, clamped to [0,100]; a
report with no errors, warnings or missing data scores exactly 100
(DataValidator._calculate_quality_score, src/modules/vehicle_db.py 182-198). -/
theorem spec_C5 (report : ValidationReport) :
    calculate_quality_score report =
      max 0 (min 100 (100 - 20 * (report.errors.length : ℚ)
        - 5 * (report.warnings.length : ℚ)
        - 2 * (report.missing_data_percentage.getD 0))) ∧
    0 ≤ calculate_quality_score report ∧
    calculate_quality_score report ≤ 100 ∧
    calculate_quality_score ⟨[], [], some 0⟩ = 100 ∧
    calculate_quality_score ⟨[], [], none⟩ = 100 := by
  refine ⟨?_, ?_, ?_, by norm_num [calculate_quality_score],
    by norm_num [calculate_quality_score]⟩
  · simp only [calculate_quality_score]
    congr 2
    ring
  · simp only [calculate_quality_score]
    exact le_max_left _ _
  · simp only [calculate_quality_score]
    exact max_le (by norm_num) (min_le_left _ _)

/-- C9: the analytics log after `_log_search` holds at most 50 entries,
starts with the entry just appended, equals that entry followed by the 49
most recent previous entries (so the oldest entries are the ones dropped),
and stays sorted newest-first when it was
(IntelligentSearch._log_search, src/modules/search.py 380-390). -/
theorem spec_C9 (e : LogEntry) (log : List LogEntry) :
    (log_search e log).length ≤ 50 ∧
    (log_search e log).head? = some e ∧
    log_search e log = e :: log.take 49 ∧
    ((∀ x ∈ log, x.timestamp ≤ e.timestamp) →
      log.Pairwise (fun a b => b.timestamp ≤ a.timestamp) →
      (log_search e log).Pairwise (fun a b => b.timestamp ≤ a.timestamp)) := by
  have htake : log_search e log = e :: log.take 49 := by
    show (e :: log).take 50 = e :: log.take 49
    rfl
  refine ⟨?_, ?_, htake, ?_⟩
  · exact List.length_take_le 50 (e :: log)
  · rw [htake]; rfl
  · intro h1 h2
    rw [htake, List.pairwise_cons]
    constructor
    · intro b hb
      exact h1 b (List.take_subset _ _ hb)
    · exact h2.sublist (List.take_sublist _ _)

/-- C9 witness: the invariants applied to a concrete log of three entries. -/
theorem spec_C9_witness :
    (log_search ⟨3, "q3", 0, "text_search"⟩
      [⟨2, "q2", 1, "fipe_id"⟩, ⟨1, "q1", 2, "cache"⟩]).Pairwise
      (fun a b => b.timestamp ≤ a.timestamp) :=
  (spec_C9 ⟨3, "q3", 0, "text_search"⟩
      [⟨2, "q2", 1, "fipe_id"⟩, ⟨1, "q1", 2, "cache"⟩]).2.2.2
    (by decide) (by decide)

/-!  ## Lemmas for the cache (C2)  -/

theorem cacheFind_map_set (c : List ((String × Option Filters) × CacheEntry))
    (k : String × Option Filters) (e : CacheEntry)
    (h : (cacheFind c k).isSome) :
    cacheFind (c.map (fun p => if p.1 = k then (k, e) else p)) k = some e := by
  induction c with
  | nil => simp [cacheFind] at h
  | cons p ps ih =>
    by_cases hp : p.1 = k
    · simp [cacheFind, hp]
    · have hrest : (cacheFind ps k).isSome := by
        simpa [cacheFind, List.find?_cons, hp] using h
      simpa [cacheFind, List.find?_cons, hp] using ih hrest

theorem cacheFind_append_set (c : List ((String × Option Filters) × CacheEntry))
    (k : String × Option Filters) (e : CacheEntry)
    (h : cacheFind c k = none) :
    cacheFind (c ++ [(k, e)]) k = some e := by
  induction c with
  | nil => simp [cacheFind]
  | cons p ps ih =>
    by_cases hp : p.1 = k
    · simp [cacheFind, List.find?_cons, hp] at h
    · have hrest : cacheFind ps k = none := by
        simpa [cacheFind, List.find?_cons, hp] using h
      simpa [cacheFind, List.find?_cons, hp] using ih hrest

theorem cacheFind_remove (c : List ((String × Option Filters) × CacheEntry))
    (k : String × Option Filters) :
    cacheFind (cacheRemove c k) k = none := by
  induction c with
  | nil => rfl
  | cons p ps ih =>
    by_cases hp : p.1 = k
    · simp only [cacheRemove] at ih ⊢
      simp only [List.filter_cons, hp]
      simpa using ih
    · simpa [cacheRemove, cacheFind, List.find?_cons, hp] using ih

theorem cacheFind_set (sc : SearchCache) (now : ℤ) (q : String)
    (rs : List SearchResult) (f : Option Filters) :
    cacheFind (sc.set now q rs f).cache (get_cache_key q f) =
      some ⟨rs, now, q, f⟩ := by
  simp only [SearchCache.set]
  by_cases h : (cacheFind sc.cache (get_cache_key q f)).isSome
  · rw [if_pos h]
    exact cacheFind_map_set _ _ _ h
  · rw [if_neg h]
    exact cacheFind_append_set _ _ _ (by
      cases hf : cacheFind sc.cache (get_cache_key q f)
      · rfl
      · exact absurd (by rw [hf]; rfl) h)

theorem set_cache_duration (sc : SearchCache) (now : ℤ) (q : String)
    (rs : List SearchResult) (f : Option Filters) :
    (sc.set now q rs f).cache_duration = sc.cache_duration := by
  simp only [SearchCache.set]
  by_cases h : (cacheFind sc.cache (get_cache_key q f)).isSome
  · rw [if_pos h]
  · rw [if_neg h]

/-- C2: cache round-trip.  `set` followed by `get` at elapsed time strictly
below the TTL returns the stored value with the store untouched; at elapsed
time at or above the TTL the read returns nothing and deletes the entry, so
a subsequent lookup no longer finds it
(SearchCache.get/set, src/modules/search.py 66-91). -/
theorem spec_C2 (sc : SearchCache) (q : String) (f : Option Filters)
    (v : List SearchResult) (t₁ t₂ : ℤ) :
    ((t₂ - t₁ < sc.cache_duration) →
      (sc.set t₁ q v f).get t₂ q f = (some v, sc.set t₁ q v f)) ∧
    ((sc.cache_duration ≤ t₂ - t₁) →
      ((sc.set t₁ q v f).get t₂ q f).1 = none ∧
      cacheFind ((sc.set t₁ q v f).get t₂ q f).2.cache (get_cache_key q f) =
        none) := by
  have hfind := cacheFind_set sc t₁ q v f
  have hdur := set_cache_duration sc t₁ q v f
  constructor
  · intro h
    simp only [SearchCache.get, hfind]
    rw [if_pos (by rw [hdur]; exact h)]
  · intro h
    simp only [SearchCache.get, hfind]
    rw [if_neg (by rw [hdur]; exact not_lt.mpr h)]
    exact ⟨rfl, cacheFind_remove _ _⟩

/-- C2 witness: round trip on a concrete cache with TTL 24, set at time 0,
read back at times 1 (hit) and 30 (expired and evicted). -/
theorem spec_C2_witness :
    ((⟨[], 24⟩ : SearchCache).set 0 "bmw" [row_to_result_dict testRow 100]
        none).get 1 "bmw" none =
      (some [row_to_result_dict testRow 100],
        (⟨[], 24⟩ : SearchCache).set 0 "bmw" [row_to_result_dict testRow 100]
          none) ∧
    (((⟨[], 24⟩ : SearchCache).set 0 "bmw" [row_to_result_dict testRow 100]
        none).get 30 "bmw" none).1 = none :=
  ⟨(spec_C2 ⟨[], 24⟩ "bmw" none [row_to_result_dict testRow 100] 0 1).1
      (by norm_num),
   ((spec_C2 ⟨[], 24⟩ "bmw" none [row_to_result_dict testRow 100] 0 30).2
      (by norm_num)).1⟩

/-!  ## Lemmas for the search engine (C1, C8, C10)  -/

theorem pyStripS_normalize (v : PyVal) :
    pyStripS (normalize_text v) = normalize_text v := by
  cases v with
  | other => rfl
  | strv s =>
    show String.mk (pyStripL (pyStripL _)) = String.mk (pyStripL _)
    rw [pyStripL_idem]

/-- C1 (amended): a cache-missing `search` on a query that is all digits
after normalization and whose value is the FipeID of exactly one dataset
row returns that single row with score 100 and method "fipe_id"
(IntelligentSearch.search, src/modules/search.py 201-211, and
_search_by_fipe, 239-257). -/
theorem spec_C1 (fz : Fuzz) (eng : IntelligentSearch) (now : ℤ) (q : String)
    (rows : List Row) (r : Row) (max_results : ℕ)
    (hdb : eng.db = some rows)
    (hmiss : truthyResults (eng.cache.get now q none).1 = false)
    (hdig : pyIsDigitS (normalize_text (.strv q)) = true)
    (huniq : rows.filter
        (fun row => row.FipeID.eqInt
          (parseDigits (normalize_text (.strv q)).data)) = [r])
    (hmax : 1 ≤ max_results) :
    (eng.search fz now q none max_results).map (fun t => (t.1, t.2.1)) =
      some ([row_to_result_dict r 100],
        { total_results := some 1, cache_hit := some false,
          search_method := some "fipe_id",
          query_normalized := some (normalize_text (.strv q)),
          error := none }) ∧
    (row_to_result_dict r 100).search_score = 100 := by
  rcases hget : eng.cache.get now q none with ⟨cr, c1⟩
  rw [hget] at hmiss
  simp only at hmiss
  have hne : ((pyStripS (normalize_text (.strv q))).data.isEmpty) = false := by
    rw [pyStripS_normalize]
    have h := hdig
    simp only [pyIsDigitS, Bool.and_eq_true, Bool.not_eq_true'] at h
    exact h.1
  have hfipe : search_by_fipe eng.db (normalize_text (.strv q)) =
      [row_to_result_dict r 100] := by
    rw [hdb]
    simp only [search_by_fipe, huniq, List.map_cons, List.map_nil]
  have htake : [row_to_result_dict r 100].take max_results =
      [row_to_result_dict r 100] :=
    List.take_of_length_le (by simpa using hmax)
  constructor
  · simp only [IntelligentSearch.search, hget, hmiss, Bool.false_eq_true,
      if_false, hne, hfipe, if_true]
    rw [if_pos ⟨hdig, by simp [hdig]⟩]
    simp [hdig, htake]
  · show round2 100 = 100
    norm_num [round2, bankerRound]

/-- C1 witness: searching the test dataset for "92983" (the BMW row's
FipeID) on a fresh engine. -/
theorem spec_C1_witness :
    (eng0.search fz0 0 "92983" none 10).map (fun t => (t.1, t.2.1)) =
      some ([row_to_result_dict testRow 100],
        { total_results := some 1, cache_hit := some false,
          search_method := some "fipe_id",
          query_normalized := some (normalize_text (.strv "92983")),
          error := none }) ∧
    (row_to_result_dict testRow 100).search_score = 100 :=
  spec_C1 fz0 eng0 0 "92983" [testRow] testRow 10 (by rfl) (by decide)
    (by decide) (by decide) (by decide)

/-- C1 counterexample: with two rows sharing FipeID 92983, `search "92983"`
returns two results via the exact-id method, so the query equals the id of
an existing record and yet the record is not the sole result. -/
theorem spec_C1_counterexample :
    (engDup.search fz0 0 "92983" none 10).map
        (fun t => (t.1.length, t.2.1.search_method)) =
      some (2, some "fipe_id") := by
  decide

/-- C8: a cache-missing search whose query normalizes to the empty string
returns the error result: an empty list and a stats dict carrying only the
explanatory error message (IntelligentSearch.search,
src/modules/search.py 191-195). -/
theorem spec_C8 (fz : Fuzz) (eng : IntelligentSearch) (now : ℤ) (q : String)
    (filters : Option Filters) (max_results : ℕ)
    (hmiss : truthyResults (eng.cache.get now q filters).1 = false)
    (hempty : normalize_text (.strv q) = "") :
    eng.search fz now q filters max_results =
      some ([],
        { total_results := none, cache_hit := none, search_method := none,
          query_normalized := none,
          error := some "Query vazia apos normalizacao" },
        { eng with
            cache := (eng.cache.get now q filters).2,
            search_analytics := { eng.search_analytics with
              total_searches := eng.search_analytics.total_searches + 1 } }) := by
  rcases hget : eng.cache.get now q filters with ⟨cr, c1⟩
  rw [hget] at hmiss
  simp only at hmiss
  have hne : ((pyStripS (normalize_text (.strv q))).data.isEmpty) = true := by
    rw [pyStripS_normalize, hempty]
    rfl
  simp only [IntelligentSearch.search, hget, hmiss, Bool.false_eq_true,
    if_false, hne, if_true]

/-- C8 witness: the query "...,!" normalizes to the empty string on the
test engine and yields the error result. -/
theorem spec_C8_witness :
    eng0.search fz0 0 "...,!" none 10 =
      some ([],
        { total_results := none, cache_hit := none, search_method := none,
          query_normalized := none,
          error := some "Query vazia apos normalizacao" },
        { eng0 with
            cache := (eng0.cache.get 0 "...,!" none).2,
            search_analytics := { eng0.search_analytics with
              total_searches := eng0.search_analytics.total_searches + 1 } }) :=
  spec_C8 fz0 eng0 0 "...,!" none 10 (by decide) (by decide)

/-- C10: a search that produced an empty result list writes that empty list
to the cache, yet an identical search within the TTL still reports
`cache_hit = false` and re-runs the full pipeline, because the engine's
`if cached_results:` treats an empty cached list as a miss
(IntelligentSearch.search, src/modules/search.py 180-189 and 220-221;
SearchCache.get, 66-80). -/
theorem spec_C10 (fz : Fuzz) (eng : IntelligentSearch) (t₁ t₂ : ℤ) (q : String)
    (f : Option Filters) (m : ℕ) (stats₁ : Stats) (eng₁ : IntelligentSearch)
    (h1 : eng.search fz t₁ q f m = some ([], stats₁, eng₁))
    (herr : stats₁.error = none)
    (httl : t₂ - t₁ < eng₁.cache.cache_duration) :
    cacheFind eng₁.cache.cache (get_cache_key q f) = some ⟨[], t₁, q, f⟩ ∧
    (eng₁.cache.get t₂ q f).1 = some [] ∧
    ∀ res₂ stats₂ eng₂, eng₁.search fz t₂ q f m = some (res₂, stats₂, eng₂) →
      stats₂.cache_hit = some false ∧
      eng₂.search_analytics.cache_hits = eng₁.search_analytics.cache_hits := by
  rcases hget : eng.cache.get t₁ q f with ⟨cr, c1⟩
  simp only [IntelligentSearch.search, hget] at h1
  by_cases hcr : truthyResults cr = true
  · rw [if_pos hcr] at h1
    exfalso
    cases cr with
    | none => simp [truthyResults] at hcr
    | some rs =>
      cases rs with
      | nil => simp [truthyResults] at hcr
      | cons a l =>
        simp only [Option.some.injEq, Prod.mk.injEq, Option.getD_some] at h1
        exact List.cons_ne_nil a l h1.1
  · rw [if_neg hcr] at h1
    by_cases hemp : ((pyStripS (normalize_text (.strv q))).data.isEmpty) = true
    · rw [if_pos hemp] at h1
      exfalso
      simp only [Option.some.injEq, Prod.mk.injEq] at h1
      rw [← h1.2.1] at herr
      simp at herr
    · rw [if_neg hemp] at h1
      have hfind1 : cacheFind eng₁.cache.cache (get_cache_key q f) =
          some ⟨[], t₁, q, f⟩ := by
        by_cases hcond : pyIsDigitS (normalize_text (.strv q)) = true ∧
            (if pyIsDigitS (normalize_text (.strv q)) = true then
              search_by_fipe eng.db (normalize_text (.strv q)) else []) ≠ []
        · rw [if_pos hcond] at h1
          dsimp only at h1
          match f, h1 with
          | none, h1 =>
            simp only [Option.some.injEq, Prod.mk.injEq] at h1
            obtain ⟨hres, _, heng⟩ := h1
            rw [← heng]
            simp only [hres]
            exact cacheFind_set c1 t₁ q [] none
          | some flt, h1 =>
            dsimp only at h1
            cases happ : apply_filters (if pyIsDigitS (normalize_text (.strv q)) = true
                then search_by_fipe eng.db (normalize_text (.strv q)) else []) flt with
            | none =>
              rw [happ] at h1
              exact absurd h1 (by simp)
            | some r1 =>
              rw [happ] at h1
              simp only [Option.some.injEq, Prod.mk.injEq] at h1
              obtain ⟨hres, _, heng⟩ := h1
              rw [← heng]
              simp only [hres]
              exact cacheFind_set c1 t₁ q [] (some flt)
        · rw [if_neg hcond] at h1
          dsimp only at h1
          match f, h1 with
          | none, h1 =>
            simp only [Option.some.injEq, Prod.mk.injEq] at h1
            obtain ⟨hres, _, heng⟩ := h1
            rw [← heng]
            simp only [hres]
            exact cacheFind_set c1 t₁ q [] none
          | some flt, h1 =>
            dsimp only at h1
            cases happ : apply_filters
                (search_by_text fz eng.db (normalize_text (.strv q)) m) flt with
            | none =>
              rw [happ] at h1
              exact absurd h1 (by simp)
            | some r1 =>
              rw [happ] at h1
              simp only [Option.some.injEq, Prod.mk.injEq] at h1
              obtain ⟨hres, _, heng⟩ := h1
              rw [← heng]
              simp only [hres]
              exact cacheFind_set c1 t₁ q [] (some flt)
      have hget2 : eng₁.cache.get t₂ q f = (some [], eng₁.cache) := by
        simp only [SearchCache.get, hfind1]
        rw [if_pos httl]
      refine ⟨hfind1, by rw [hget2], ?_⟩
      intro res₂ stats₂ eng₂ h2
      simp only [IntelligentSearch.search, hget2] at h2
      have htr : truthyResults (some []) = false := rfl
      rw [htr] at h2
      simp only [Bool.false_eq_true, if_false] at h2
      rw [if_neg hemp] at h2
      by_cases hcond₂ : pyIsDigitS (normalize_text (.strv q)) = true ∧
          (if pyIsDigitS (normalize_text (.strv q)) = true then
            search_by_fipe eng₁.db (normalize_text (.strv q)) else []) ≠ []
      · rw [if_pos hcond₂] at h2
        dsimp only at h2
        match f, h2 with
        | none, h2 =>
          simp only [Option.some.injEq, Prod.mk.injEq] at h2
          obtain ⟨_, hstats, heng⟩ := h2
          rw [← hstats, ← heng]
          exact ⟨rfl, rfl⟩
        | some flt, h2 =>
          dsimp only at h2
          cases happ : apply_filters (if pyIsDigitS (normalize_text (.strv q)) = true
              then search_by_fipe eng₁.db (normalize_text (.strv q)) else []) flt with
          | none =>
            rw [happ] at h2
            exact absurd h2 (by simp)
          | some r1 =>
            rw [happ] at h2
            simp only [Option.some.injEq, Prod.mk.injEq] at h2
            obtain ⟨_, hstats, heng⟩ := h2
            rw [← hstats, ← heng]
            exact ⟨rfl, rfl⟩
      · rw [if_neg hcond₂] at h2
        dsimp only at h2
        match f, h2 with
        | none, h2 =>
          simp only [Option.some.injEq, Prod.mk.injEq] at h2
          obtain ⟨_, hstats, heng⟩ := h2
          rw [← hstats, ← heng]
          exact ⟨rfl, rfl⟩
        | some flt, h2 =>
          dsimp only at h2
          cases happ : apply_filters
              (search_by_text fz eng₁.db (normalize_text (.strv q)) m) flt with
          | none =>
            rw [happ] at h2
            exact absurd h2 (by simp)
          | some r1 =>
            rw [happ] at h2
            simp only [Option.some.injEq, Prod.mk.injEq] at h2
            obtain ⟨_, hstats, heng⟩ := h2
            rw [← hstats, ← heng]
            exact ⟨rfl, rfl⟩

/-- C10 witness: on an empty dataset the search "ZZZ" stores `[]` in the
cache; one time unit later the entry is present and valid yet treated as a
miss. -/
theorem spec_C10_witness :
    cacheFind (⟨[(("zzz", none), ⟨[], 0, "ZZZ", none⟩)], 24⟩ : SearchCache).cache
        (get_cache_key "ZZZ" none) = some ⟨[], 0, "ZZZ", none⟩ ∧
    ((⟨[(("zzz", none), ⟨[], 0, "ZZZ", none⟩)], 24⟩ : SearchCache).get
        1 "ZZZ" none).1 = some [] := by
  have h := spec_C10 fz0 engEmpty 0 1 "ZZZ" none 10
    { total_results := some 0, cache_hit := some false,
      search_method := some "text_search", query_normalized := some "ZZZ",
      error := none }
    { db := some [],
      cache := ⟨[(("zzz", none), ⟨[], 0, "ZZZ", none⟩)], 24⟩,
      search_analytics := ⟨1, 0, [⟨0, "ZZZ", 0, "text_search"⟩]⟩ }
    (by decide) (by rfl) (by decide)
  exact ⟨h.1, h.2.1⟩

/-!  ## Lemmas for the textual search (C3)  -/

theorem mem_insDesc {z x : SearchResult} {l : List SearchResult} :
    z ∈ insDesc x l ↔ z = x ∨ z ∈ l := by
  induction l with
  | nil => simp [insDesc]
  | cons y ys ih =>
    by_cases hc : x.search_score < y.search_score
    · simp only [insDesc, if_pos hc, List.mem_cons, ih]
      tauto
    · simp only [insDesc, if_neg hc, List.mem_cons]

theorem mem_sortDesc {z : SearchResult} {l : List SearchResult} :
    z ∈ sortDesc l ↔ z ∈ l := by
  induction l with
  | nil => simp [sortDesc]
  | cons x xs ih =>
    simp only [sortDesc, mem_insDesc, ih, List.mem_cons]

theorem insDesc_pairwise (x : SearchResult) (l : List SearchResult)
    (h : l.Pairwise (fun a b => b.search_score ≤ a.search_score)) :
    (insDesc x l).Pairwise (fun a b => b.search_score ≤ a.search_score) := by
  induction l with
  | nil => simp [insDesc]
  | cons y ys ih =>
    rw [List.pairwise_cons] at h
    obtain ⟨hy, hys⟩ := h
    by_cases hc : x.search_score < y.search_score
    · simp only [insDesc, if_pos hc]
      rw [List.pairwise_cons]
      refine ⟨?_, ih hys⟩
      intro z hz
      rcases mem_insDesc.mp hz with rfl | hz'
      · exact le_of_lt hc
      · exact hy z hz'
    · simp only [insDesc, if_neg hc]
      rw [List.pairwise_cons]
      refine ⟨?_, by rw [List.pairwise_cons]; exact ⟨hy, hys⟩⟩
      intro z hz
      rcases List.mem_cons.mp hz with rfl | hz'
      · exact not_lt.mp hc
      · exact le_trans (hy z hz') (not_lt.mp hc)

theorem sortDesc_pairwise (l : List SearchResult) :
    (sortDesc l).Pairwise (fun a b => b.search_score ≤ a.search_score) := by
  induction l with
  | nil => simp [sortDesc]
  | cons x xs ih => exact insDesc_pairwise x _ ih

theorem insDesc_filter (c : ℚ) (x : SearchResult) (l : List SearchResult) :
    (insDesc x l).filter (fun r => r.search_score = c) =
      (x :: l).filter (fun r => r.search_score = c) := by
  induction l with
  | nil => rfl
  | cons y ys ih =>
    by_cases hc : x.search_score < y.search_score
    · have h1 : insDesc x (y :: ys) = y :: insDesc x ys := by
        simp only [insDesc, if_pos hc]
      rw [h1]
      by_cases hpy : y.search_score = c
      · have hpx : ¬(x.search_score = c) := by
          rw [← hpy]
          exact ne_of_lt hc
        simp [List.filter_cons, hpx, hpy, ih]
      · by_cases hpx : x.search_score = c <;>
          simp [List.filter_cons, hpx, hpy, ih]
    · simp only [insDesc, if_neg hc]

theorem sortDesc_filter (c : ℚ) (l : List SearchResult) :
    (sortDesc l).filter (fun r => r.search_score = c) =
      l.filter (fun r => r.search_score = c) := by
  induction l with
  | nil => rfl
  | cons x xs ih =>
    show (insDesc x (sortDesc xs)).filter _ = _
    rw [insDesc_filter]
    simp only [List.filter_cons]
    by_cases hpx : x.search_score = c <;> simp [hpx, ih]

theorem search_by_text_eq (fz : Fuzz) (rows : List Row) (q : String)
    (m : ℕ) : search_by_text fz (some rows) q m =
      (sortDesc (qualifyingResults fz q rows)).take m := by
  by_cases h : rows.isEmpty
  · have hnil : rows = [] := by
      cases rows
      · rfl
      · simp at h
    subst hnil
    simp [search_by_text, qualifyingResults, sortDesc]
  · simp only [search_by_text, h, Bool.false_eq_true, if_false]

theorem bankerRound_le_ceil (y : ℚ) : bankerRound y ≤ ⌈y⌉ := by
  simp only [bankerRound]
  split_ifs with h1 h2 h3
  · exact Int.floor_le_ceil y
  · rw [Int.add_one_le_iff, Int.lt_ceil]
    have hf := Int.floor_le y
    have : (1 : ℚ)/2 < y - ⌊y⌋ := h2
    linarith
  · exact Int.floor_le_ceil y
  · rw [Int.add_one_le_iff, Int.lt_ceil]
    have : ¬(y - ⌊y⌋ < 1/2) := h1
    push_neg at this
    have h4 : ¬((1:ℚ)/2 < y - ⌊y⌋) := h2
    push_neg at h4
    have : y - ⌊y⌋ = 1/2 := le_antisymm h4 this
    linarith

theorem round2_le_100 {x : ℚ} (h : x ≤ 100) : round2 x ≤ 100 := by
  unfold round2
  have h1 : bankerRound (x * 100) ≤ ⌈x * 100⌉ := bankerRound_le_ceil _
  have h2 : ⌈x * 100⌉ ≤ (10000 : ℤ) := by
    rw [Int.ceil_le]
    push_cast
    linarith
  have h3 : (bankerRound (x * 100) : ℚ) ≤ 10000 := by
    exact_mod_cast le_trans h1 h2
  linarith

/-- C3: for every dataset and normalized query, the textual search path
returns only records whose relevance score strictly exceeds 60, every
returned `search_score` is at most 100 (scores are clamped at 100), the
results are sorted by descending score, and the sort is stable: for each
score value the results carry exactly the qualifying records in original
dataset order (IntelligentSearch._search_by_text,
src/modules/search.py 259-282, and _calculate_relevance_score, 284-338). -/
theorem spec_C3 (fz : Fuzz) (q : String) (rows : List Row) (max_results : ℕ) :
    (∀ res ∈ search_by_text fz (some rows) q max_results,
      ∃ row ∈ rows,
        60 < calculate_relevance_score fz q row (extract_numbers q)
          (extract_brands q) ∧
        res = row_to_result_dict row
          (calculate_relevance_score fz q row (extract_numbers q)
            (extract_brands q))) ∧
    (∀ res ∈ search_by_text fz (some rows) q max_results,
      res.search_score ≤ 100) ∧
    (search_by_text fz (some rows) q max_results).Pairwise
      (fun a b => b.search_score ≤ a.search_score) ∧
    (∀ c : ℚ, (sortDesc (qualifyingResults fz q rows)).filter
        (fun r => r.search_score = c) =
      (qualifyingResults fz q rows).filter (fun r => r.search_score = c)) := by
  have hmemq : ∀ res ∈ search_by_text fz (some rows) q max_results,
      res ∈ qualifyingResults fz q rows := by
    intro res hres
    rw [search_by_text_eq] at hres
    exact mem_sortDesc.mp (List.take_subset _ _ hres)
  have hqual : ∀ res ∈ qualifyingResults fz q rows,
      ∃ row ∈ rows,
        60 < calculate_relevance_score fz q row (extract_numbers q)
          (extract_brands q) ∧
        res = row_to_result_dict row
          (calculate_relevance_score fz q row (extract_numbers q)
            (extract_brands q)) := by
    intro res hres
    simp only [qualifyingResults, List.mem_filterMap] at hres
    obtain ⟨row, hrow, hcond⟩ := hres
    by_cases hs : 60 < calculate_relevance_score fz q row (extract_numbers q)
        (extract_brands q)
    · rw [if_pos hs] at hcond
      exact ⟨row, hrow, hs, (Option.some.inj hcond).symm⟩
    · rw [if_neg hs] at hcond
      cases hcond
  refine ⟨fun res hres => hqual res (hmemq res hres), ?_, ?_, fun c => sortDesc_filter c _⟩
  · intro res hres
    obtain ⟨row, _, _, hdict⟩ := hqual res (hmemq res hres)
    rw [hdict]
    show round2 (calculate_relevance_score fz q row _ _) ≤ 100
    apply round2_le_100
    exact min_le_right _ _
  · rw [search_by_text_eq]
    exact (sortDesc_pairwise _).sublist (List.take_sublist _ _)

/-- C3 witness: on the test dataset the query "BMW" qualifies the BMW row
with score 100 and the returned entry respects the bounds. -/
theorem spec_C3_witness :
    row_to_result_dict testRow 100 ∈ search_by_text fz0 (some [testRow]) "BMW" 10 ∧
    (row_to_result_dict testRow 100).search_score ≤ 100 := by
  have hscore : calculate_relevance_score fz0 "BMW" testRow
      (extract_numbers "BMW") (extract_brands "BMW") = 100 := by
    have e1 : containsStr (pyUpperS "BMW")
        (pyUpperS (CellVal.pyStr testRow.BrandName)) = true := by decide
    have e2 : List.filter
        (fun b => containsStr (pyUpperS (CellVal.pyStr testRow.BrandName)) b)
        (extract_brands "BMW") = ["BMW"] := by decide
    have e3 : CellVal.pyStr testRow.VehicleName ≠ "" := by decide
    have e4 : (CellVal.pyStr testRow.abrevDescricao ≠ "" &&
        CellVal.pyStr testRow.abrevDescricao ≠ "nan") = true := by decide
    have e5 : extract_numbers "BMW" = ([] : List String) := by decide
    have e7 : CellVal.eqStr testRow.ADAS "Sim" = true := by decide
    have e8 : pyStripS (pyUpperS (pyUpperS (CellVal.pyStr testRow.BrandName) ++
        " " ++ CellVal.pyStr testRow.VehicleName ++ " " ++
        CellVal.pyStr testRow.abrevDescricao)) ≠ "" := by decide
    simp only [calculate_relevance_score, fz0, e1, e2, e3, e4, e5, e7, e8,
      if_true, List.filter_nil, List.length_nil, List.length_cons,
      List.length_nil]
    norm_num
  have hq : qualifyingResults fz0 "BMW" [testRow] =
      [row_to_result_dict testRow 100] := by
    simp only [qualifyingResults, List.filterMap_cons, List.filterMap_nil,
      hscore]
    norm_num
  have hsbt : search_by_text fz0 (some [testRow]) "BMW" 10 =
      [row_to_result_dict testRow 100] := by
    rw [search_by_text_eq, hq]
    rfl
  rw [hsbt]
  refine ⟨List.mem_singleton.mpr rfl, ?_⟩
  exact (spec_C3 fz0 "BMW" [testRow] 10).2.1 _
    (by rw [hsbt]; exact List.mem_singleton.mpr rfl)

/-!  ## Lemmas for advanced_search (C4)  -/

theorem dotMatch_eq_pref (p : List Char)
    (hp : p.all (fun c => !isRegexMeta c) = true) (t : List Char) :
    dotMatch p t = prefChars p t := by
  induction p generalizing t with
  | nil => cases t <;> rfl
  | cons c cs ih =>
    rw [List.all_cons, Bool.and_eq_true] at hp
    cases t with
    | nil => rfl
    | cons d ds =>
      have hc : (c = '.') = False := by
        simp only [eq_iff_iff, iff_false]
        intro h
        subst h
        simp [isRegexMeta] at hp
      have h1 : dotMatch (c :: cs) (d :: ds) =
          ((c = d : Bool) && dotMatch cs ds) := by
        simp [dotMatch, hc]
      rw [h1]
      simp only [prefChars]
      rw [ih hp.2]

theorem regexSearchStr_eq_contains (pat s : String) (hp : regexLiteral pat) :
    regexSearchStr pat s = containsStr s pat := by
  simp only [regexSearchStr, containsStr, regexSearch, containsL]
  have hfg : (fun t => dotMatch pat.data t) = (fun t => prefChars pat.data t) :=
    funext (fun t => dotMatch_eq_pref pat.data hp t)
  rw [hfg]

theorem caseTable_no_meta :
    ∀ p ∈ caseTable, isRegexMeta p.1 = false ∧ isRegexMeta p.2 = false := by
  decide

theorem isRegexMeta_pyUpperChar (c : Char) (h : isRegexMeta c = false) :
    isRegexMeta (pyUpperChar c) = false := by
  cases hfind : caseTable.find? (fun p => p.2 = c) with
  | none => rw [pyUpperChar_of_none hfind]; exact h
  | some p =>
    rw [pyUpperChar_of_some hfind]
    exact (caseTable_no_meta p (List.mem_of_find?_eq_some hfind)).1

theorem isRegexMeta_pyLowerChar (c : Char) (h : isRegexMeta c = false) :
    isRegexMeta (pyLowerChar c) = false := by
  cases hfind : caseTable.find? (fun p => p.1 = c) with
  | none => rw [pyLowerChar_of_none hfind]; exact h
  | some p =>
    rw [pyLowerChar_of_some hfind]
    exact (caseTable_no_meta p (List.mem_of_find?_eq_some hfind)).2

theorem regexLiteral_pyUpperS {s : String} (h : regexLiteral s) :
    regexLiteral (pyUpperS s) := by
  simp only [regexLiteral, List.all_eq_true] at h ⊢
  intro c hc
  simp only [pyUpperS, data_mk, pyUpperL] at hc
  obtain ⟨d, hd, rfl⟩ := List.mem_map.mp hc
  have hdm := h d hd
  rw [Bool.not_eq_true'] at hdm ⊢
  exact isRegexMeta_pyUpperChar d hdm

theorem regexLiteral_pyLowerS {s : String} (h : regexLiteral s) :
    regexLiteral (pyLowerS s) := by
  simp only [regexLiteral, List.all_eq_true] at h ⊢
  intro c hc
  simp only [pyLowerS, data_mk, pyLowerL] at hc
  obtain ⟨d, hd, rfl⟩ := List.mem_map.mp hc
  have hdm := h d hd
  rw [Bool.not_eq_true'] at hdm ⊢
  exact isRegexMeta_pyLowerChar d hdm

theorem filter_chain (l : List Row) (p q : Row → Bool) :
    (l.filter p).filter q = l.filter (fun r => p r && q r) := by
  induction l with
  | nil => rfl
  | cons x xs ih =>
    by_cases hp : p x
    · by_cases hq : q x <;> simp [List.filter_cons, hp, hq, ih]
    · simp [List.filter_cons, hp, ih]


theorem brand_stage (rows : List Row) (cb : Option String)
    (hb : ∀ s, cb = some s → regexLiteral s) :
    (if strTruthy cb then
        rows.filter (fun r => r.BrandName.isStr &&
          regexSearchStr (pyUpperS (cb.getD ""))
            (pyUpperS r.BrandName.pyStr))
      else rows) =
    rows.filter (fun r => if strTruthy cb then r.BrandName.isStr &&
        containsStr (pyUpperS r.BrandName.pyStr) (pyUpperS (cb.getD ""))
      else true) := by
  by_cases ht : strTruthy cb = true
  · rw [if_pos ht]
    have hlit : regexLiteral (pyUpperS (cb.getD "")) := by
      apply regexLiteral_pyUpperS
      cases hcb : cb with
      | none => rw [hcb] at ht; simp [strTruthy] at ht
      | some s => exact hb s hcb
    apply List.filter_congr
    intro r _
    rw [if_pos ht, regexSearchStr_eq_contains _ _ hlit]
  · rw [if_neg ht]
    have hf : (fun r : Row => if strTruthy cb then (r.BrandName.isStr &&
        containsStr (pyUpperS r.BrandName.pyStr) (pyUpperS (cb.getD "")))
        else true) = fun _ => true := funext (fun r => by rw [if_neg ht])
    rw [hf, List.filter_true]

theorem year_stage (f1 : List Row) (yr : Option (ℤ × ℤ))
    (hy : ∀ r ∈ f1, r.VehicleModelYear.isStr = false) :
    (match yr with
     | some (min_year, max_year) =>
       if f1.any (fun r => r.VehicleModelYear.isStr) then none
       else some (f1.filter
         (fun r => cellYearIn r.VehicleModelYear min_year max_year))
     | none => some f1) =
    some (f1.filter (fun r => match yr with
      | some (min_year, max_year) =>
        cellYearIn r.VehicleModelYear min_year max_year
      | none => true)) := by
  cases yr with
  | none => simp [List.filter_true]
  | some p =>
    obtain ⟨lo, hi⟩ := p
    have hany : f1.any (fun r => r.VehicleModelYear.isStr) = false := by
      rw [List.any_eq_false]
      intro r hr
      simp [hy r hr]
    simp [hany]

theorem adas_stage (f2 : List Row) (ha : Option Bool) :
    (match ha with
     | some b => f2.filter (fun r => r.ADAS.eqStr (if b then "Sim" else "Não"))
     | none => f2) =
    f2.filter (fun r => match ha with
      | some b => r.ADAS.eqStr (if b then "Sim" else "Não")
      | none => true) := by
  cases ha <;> simp [List.filter_true]

theorem cal_stage (f3 : List Row) (ct : Option String)
    (hct : ∀ s, ct = some s → regexLiteral s) :
    (if strTruthy ct then
        f3.filter (fun r => r.tipoRegulagem.isStr &&
          regexSearchStr (pyLowerS (ct.getD ""))
            (pyLowerS r.tipoRegulagem.pyStr))
      else f3) =
    f3.filter (fun r => if strTruthy ct then r.tipoRegulagem.isStr &&
        containsStr (pyLowerS r.tipoRegulagem.pyStr) (pyLowerS (ct.getD ""))
      else true) := by
  by_cases ht : strTruthy ct = true
  · rw [if_pos ht]
    have hlit : regexLiteral (pyLowerS (ct.getD "")) := by
      apply regexLiteral_pyLowerS
      cases hcb : ct with
      | none => rw [hcb] at ht; simp [strTruthy] at ht
      | some s => exact hct s hcb
    apply List.filter_congr
    intro r _
    rw [if_pos ht, regexSearchStr_eq_contains _ _ hlit]
  · rw [if_neg ht]
    have hf : (fun r : Row => if strTruthy ct then (r.tipoRegulagem.isStr &&
        containsStr (pyLowerS r.tipoRegulagem.pyStr) (pyLowerS (ct.getD "")))
        else true) = fun _ => true := funext (fun r => by rw [if_neg ht])
    rw [hf, List.filter_true]

/-- C4 (amended): `advanced_search` matches the brand and calibration-kind
criteria as case-insensitive regular expressions (pandas `str.contains`
semantics).  Whenever those criteria contain no regex metacharacters —
where regex search and the claim's substring reading coincide — the result
is exactly the dataset rows passing all supplied filters (brand
case-insensitive substring, inclusive year range, exact ADAS flag mapped to
Sim/Não, calibration-kind case-insensitive substring) applied as one
conjunction, in original dataset order, each with the fixed score 95,
capped at 50 results (IntelligentSearch.advanced_search,
src/modules/search.py 429-483). -/
theorem spec_C4 (rows : List Row) (c : Criteria)
    (hb : ∀ s, c.brand = some s → regexLiteral s)
    (hct : ∀ s, c.calibration_type = some s → regexLiteral s)
    (hy : ∀ r ∈ rows, r.VehicleModelYear.isStr = false) :
    ∃ out, advanced_search (some rows) c = some out ∧
      out = ((rows.filter (fun r =>
          (if strTruthy c.brand then r.BrandName.isStr &&
             containsStr (pyUpperS r.BrandName.pyStr)
               (pyUpperS (c.brand.getD "")) else true) &&
          ((match c.year_range with
            | some (min_year, max_year) =>
              cellYearIn r.VehicleModelYear min_year max_year
            | none => true) &&
           ((match c.has_adas with
             | some b => r.ADAS.eqStr (if b then "Sim" else "Não")
             | none => true) &&
            (if strTruthy c.calibration_type then r.tipoRegulagem.isStr &&
               containsStr (pyLowerS r.tipoRegulagem.pyStr)
                 (pyLowerS (c.calibration_type.getD "")) else true))))).map
        (fun r => row_to_result_dict r 95)).take 50 ∧
      out.length ≤ 50 ∧
      ∀ res ∈ out, res.search_score = round2 95 := by
  by_cases hnil : rows.isEmpty = true
  · have hrows : rows = [] := by
      cases rows
      · rfl
      · simp at hnil
    subst hrows
    exact ⟨[], by simp [advanced_search], by simp, by simp, by simp⟩
  · have hchain : advanced_search (some rows) c =
        some (((((rows.filter (fun r =>
            if strTruthy c.brand then r.BrandName.isStr &&
              containsStr (pyUpperS r.BrandName.pyStr)
                (pyUpperS (c.brand.getD "")) else true)).filter (fun r =>
            match c.year_range with
            | some (min_year, max_year) =>
              cellYearIn r.VehicleModelYear min_year max_year
            | none => true)).filter (fun r =>
            match c.has_adas with
            | some b => r.ADAS.eqStr (if b then "Sim" else "Não")
            | none => true)).filter (fun r =>
            if strTruthy c.calibration_type then r.tipoRegulagem.isStr &&
              containsStr (pyLowerS r.tipoRegulagem.pyStr)
                (pyLowerS (c.calibration_type.getD "")) else true)).map
          (fun r => row_to_result_dict r 95) |>.take 50) := by
      simp only [advanced_search]
      rw [if_neg hnil]
      rw [brand_stage rows c.brand hb]
      rw [year_stage (rows.filter _) c.year_range
        (fun r hr => hy r ((List.mem_filter.mp hr).1))]
      dsimp only
      rw [adas_stage, cal_stage _ c.calibration_type hct]
    rw [hchain]
    rw [filter_chain, filter_chain, filter_chain]
    refine ⟨_, rfl, rfl, List.length_take_le _ _, ?_⟩
    intro res hres
    obtain ⟨r, _, rfl⟩ := List.mem_map.mp (List.take_subset _ _ hres)
    rfl

/-- C4 witness: VOLKSWAGEN-style criteria on the test dataset — brand
"BMW", year range [2020, 2024], ADAS true — return exactly the BMW row with
the fixed score. -/
theorem spec_C4_witness :
    advanced_search (some [testRow])
        ⟨some "BMW", some (2020, 2024), some true, none⟩ =
      some [row_to_result_dict testRow 95] := by
  obtain ⟨out, h1, h2, _, _⟩ := spec_C4 [testRow]
    ⟨some "BMW", some (2020, 2024), some true, none⟩
    (fun s hs => by
      injection hs with h
      subst h
      show ("BMW").data.all (fun c => !isRegexMeta c) = true
      decide)
    (fun s hs => nomatch hs)
    (by decide)
  rw [h1, h2]
  simp only [List.filter_cons, List.filter_nil]
  split
  · rfl
  · rename_i hcon
    exact absurd (by decide) hcon

/-- C4 counterexample: the criteria brand "B.W" (a regex, `.` matching any
character) returns the BMW record even though "B.W" is not a
case-insensitive substring of "BMW", so the claim's substring reading of
the brand filter is violated. -/
theorem spec_C4_counterexample :
    (advanced_search (some [testRow]) ⟨some "B.W", none, none, none⟩).map
        (fun l => (l.length, l.map (fun res => res.brand))) =
      some (1, [CellVal.str "BMW"]) ∧
    containsStr (pyUpperS (CellVal.pyStr (CellVal.str "BMW")))
      (pyUpperS "B.W") = false := by
  constructor
  · decide
  · decide
